import Mathlib

/-!
Verification development for the Collada exporter declared in
`code/AssetLib/Collada/ColladaExporter.h`.

The exporter class is shallowly embedded: its member state becomes an explicit
`ColladaExporter` structure, member functions become state-passing functions,
and the produced document is modelled as a list of structured markup items.
The repository ships only the class declaration (plus the few inline bodies:
`PushTag`, `PopTag`, the `Surface`/`Property` constructors and the default
member initializers); every definition whose body is absent from the header is
marked with a doc comment starting `Modelled from the spec:` and follows the
specification's wording.  All other definitions are translated directly from
the source.
-/

namespace ColladaExport

/-- Decimal digits of a natural number, most significant first.  Structural
fuel keeps the definition kernel-reducible; the fuel is always instantiated
with the number itself, which is a sufficient bound. -/
def natDigitsAux : Nat → Nat → List Nat
  | 0, n => [n % 10]
  | fuel + 1, n => if n < 10 then [n] else natDigitsAux fuel (n / 10) ++ [n % 10]

/-- Decimal digit list of `n`, most significant first. -/
def natDigits (n : Nat) : List Nat := natDigitsAux n n

/-- Interpret a digit list back as a number (left fold, base ten). -/
def natOfDigits (l : List Nat) : Nat := l.foldl (fun a d => a * 10 + d) 0

theorem natDigitsAux_foldl (fuel : Nat) :
    ∀ n a, n ≤ fuel →
      (natDigitsAux fuel n).foldl (fun a d => a * 10 + d) a =
        a * 10 ^ (natDigitsAux fuel n).length + n := by
  induction fuel with
  | zero =>
    intro n a hn
    interval_cases n
    simp [natDigitsAux]
  | succ fuel ih =>
    intro n a hn
    by_cases h : n < 10
    · simp [natDigitsAux, h]
    · have h10 : 10 ≤ n := Nat.le_of_not_lt h
      have hdiv : n / 10 ≤ fuel := by
        have h1 : n / 10 < n := Nat.div_lt_self (by omega) (by omega)
        omega
      simp only [natDigitsAux, if_neg h, List.foldl_append, List.length_append,
        List.foldl_cons, List.foldl_nil, List.length_cons, List.length_nil]
      rw [ih (n / 10) a hdiv]
      have : n = 10 * (n / 10) + n % 10 := (Nat.div_add_mod n 10).symm
      ring_nf
      omega

theorem natOfDigits_natDigits (n : Nat) : natOfDigits (natDigits n) = n := by
  have := natDigitsAux_foldl n n 0 (Nat.le_refl n)
  simpa [natOfDigits, natDigits] using this

theorem natDigits_inj {m n : Nat} (h : natDigits m = natDigits n) : m = n := by
  have hm := natOfDigits_natDigits m
  have hn := natOfDigits_natDigits n
  rw [← hm, ← hn, h]

theorem natDigitsAux_lt_ten (fuel : Nat) :
    ∀ n d, d ∈ natDigitsAux fuel n → d < 10 := by
  induction fuel with
  | zero =>
    intro n d hd
    simp only [natDigitsAux, List.mem_singleton] at hd
    subst hd
    exact Nat.mod_lt _ (by omega)
  | succ fuel ih =>
    intro n d hd
    by_cases h : n < 10
    · simp only [natDigitsAux, if_pos h, List.mem_singleton] at hd
      omega
    · simp only [natDigitsAux, if_neg h, List.mem_append, List.mem_singleton] at hd
      rcases hd with hd | hd
      · exact ih _ _ hd
      · subst hd
        exact Nat.mod_lt _ (by omega)

theorem natDigits_lt_ten {n d : Nat} (hd : d ∈ natDigits n) : d < 10 :=
  natDigitsAux_lt_ten n n d hd

/-- Decimal character rendering of a natural number. -/
def natDecChars (n : Nat) : List Char := (natDigits n).map Nat.digitChar

theorem digitChar_injOn :
    ∀ d1, d1 < 10 → ∀ d2, d2 < 10 → Nat.digitChar d1 = Nat.digitChar d2 → d1 = d2 := by
  decide

theorem map_digitChar_inj :
    ∀ l1 l2 : List Nat, (∀ d ∈ l1, d < 10) → (∀ d ∈ l2, d < 10) →
      l1.map Nat.digitChar = l2.map Nat.digitChar → l1 = l2 := by
  intro l1
  induction l1 with
  | nil =>
    intro l2 _ _ h
    cases l2 with
    | nil => rfl
    | cons b t => simp at h
  | cons a t1 ih =>
    intro l2 h1 h2 h
    cases l2 with
    | nil => simp at h
    | cons b t2 =>
      simp only [List.map_cons, List.cons.injEq] at h
      have ha : a = b :=
        digitChar_injOn a (h1 a (by simp)) b (h2 b (by simp)) h.1
      have ht : t1 = t2 :=
        ih t2 (fun d hd => h1 d (by simp [hd])) (fun d hd => h2 d (by simp [hd])) h.2
      rw [ha, ht]

theorem natDecChars_inj {m n : Nat} (h : natDecChars m = natDecChars n) : m = n := by
  apply natDigits_inj
  exact map_digitChar_inj _ _ (fun d hd => natDigits_lt_ten hd)
    (fun d hd => natDigits_lt_ten hd) h

/-- Decimal string of a natural number. -/
def natDecStr (n : Nat) : String := String.mk (natDecChars n)

theorem strData_append (a b : String) : (a ++ b).data = a.data ++ b.data := by
  cases a
  cases b
  rfl

theorem strEq_of_data {a b : String} (h : a.data = b.data) : a = b := by
  cases a
  cases b
  simp only at h
  rw [h]

/-- Candidate identifier obtained by appending an incrementing numeric suffix,
as collision resolution does for identifiers whose base form is taken. -/
def suffixedId (base : String) (n : Nat) : String := base ++ "_" ++ natDecStr n

theorem suffixedId_inj (base : String) : Function.Injective (suffixedId base) := by
  intro m n h
  apply natDecChars_inj
  have hdata := congrArg String.data h
  simp only [suffixedId, strData_append, natDecStr] at hdata
  exact List.append_cancel_left hdata

/-- Modelled from the spec: the collision-resolution core of the Identifier
Registry (spec 4.1); the implementation file is absent from the repository.
A candidate id is returned as-is when free; otherwise incrementing numeric
suffixes are tried until a free identifier is found.  The search range
`1 .. usedIds.length + 1` always contains a free suffix (pigeonhole), so the
final fallback branch is unreachable. -/
def MakeUniqueId (usedIds : List String) (base : String) : String :=
  if base ∈ usedIds then
    match (List.range' 1 (usedIds.length + 1)).find?
        (fun n => decide (suffixedId base n ∉ usedIds)) with
    | some n => suffixedId base n
    | none => base
  else base

theorem MakeUniqueId_not_mem (usedIds : List String) (base : String) :
    MakeUniqueId usedIds base ∉ usedIds := by
  unfold MakeUniqueId
  by_cases hbase : base ∈ usedIds
  · simp only [if_pos hbase]
    cases hfind : (List.range' 1 (usedIds.length + 1)).find?
        (fun n => decide (suffixedId base n ∉ usedIds)) with
    | some n =>
      have hp := List.find?_some hfind
      simpa using of_decide_eq_true hp
    | none =>
      exfalso
      have hall := List.find?_eq_none.mp hfind
      have hsub : (List.range' 1 (usedIds.length + 1)).map (suffixedId base) ⊆ usedIds := by
        intro s hs
        rcases List.mem_map.mp hs with ⟨n, hn, rfl⟩
        have := hall n hn
        simp only [decide_eq_true_eq] at this
        exact Decidable.of_not_not this
      have hnodup : ((List.range' 1 (usedIds.length + 1)).map (suffixedId base)).Nodup :=
        (List.nodup_range' 1 (usedIds.length + 1)).map (suffixedId_inj base)
      have hle := (List.subperm_of_subset hnodup hsub).length_le
      simp only [List.length_map, List.length_range'] at hle
      omega
  · simp only [if_neg hbase]
    exact hbase

/-- Translation of `ai_real` (a floating-point scalar in the source).  Claims
about the exporter never inspect scalar values, only counts and structure, so
the type is carried opaquely. -/
abbrev AiReal := Float

/-- Translation of `aiColor4D`. -/
structure AiColor4D where
  r : AiReal
  g : AiReal
  b : AiReal
  a : AiReal

/-- Translation of the source `struct Surface` (ColladaExporter.h):
a pair of color and texture for one material channel; texture precedences
color. -/
structure Surface where
  exist : Bool
  color : AiColor4D
  texture : String
  channel : Nat

/-- Translation of the source `Surface()` constructor: `exist = false`,
`channel = 0` (color and texture value-initialized). -/
def Surface.init : Surface :=
  { exist := false, color := ⟨0, 0, 0, 0⟩, texture := "", channel := 0 }

/-- Translation of the source `struct Property`. -/
structure Property where
  exist : Bool
  value : AiReal

/-- Translation of the source `Property()` constructor. -/
def Property.init : Property := { exist := false, value := 0 }

/-- Translation of the source `enum class AiObjectType` (without the `Count`
sentinel, which only sizes the parallel arrays). -/
inductive AiObjectType where
  | Mesh
  | Material
  | Animation
  | Light
  | Camera
deriving DecidableEq, Repr

/-- Identity of an `aiBone` for the Identifier Registry: its address (the
`const void *` key of `mNodeIdMap`) plus its declared name, from which the
candidate identifier is derived. -/
structure AiBone where
  addr : Nat
  mName : String
deriving DecidableEq, Repr

/-- Scene-graph node, as the claims need it: identity is the address of the
caller-owned node object; it carries an optional human-readable name, a flag
telling whether the traversal recognizes it as the root of a bone hierarchy,
the indices of attached mesh instances, and its children. -/
inductive AiNode : Type where
  | mk (addr : Nat) (mName : String) (isSkeletonRoot : Bool)
      (mMeshes : List Nat) (mChildren : List AiNode)
deriving Repr

def AiNode.addr : AiNode → Nat
  | .mk a _ _ _ _ => a

def AiNode.mName : AiNode → String
  | .mk _ nm _ _ _ => nm

def AiNode.isSkeletonRoot : AiNode → Bool
  | .mk _ _ b _ _ => b

def AiNode.mMeshes : AiNode → List Nat
  | .mk _ _ _ ms _ => ms

def AiNode.mChildren : AiNode → List AiNode
  | .mk _ _ _ _ cs => cs

/-- Mesh pool entry: a name and the bones that skin it (a mesh is skinned
iff it has at least one bone). -/
structure AiMesh where
  mName : String
  mBones : List AiBone
deriving Repr

/-- The caller-owned scene: a node tree plus flat pools of named objects.
Pools other than the mesh pool are carried as name lists, which is all the
identifier and library writers consult. -/
structure AiScene where
  mRootNode : Option AiNode
  mTextures : List String
  mMeshes : List AiMesh
  mMaterials : List String
  mLights : List String
  mCameras : List String
  mAnimations : List String
deriving Repr

/-- Structured markup items making up the produced document.  The claims are
about which entries appear and how elements nest, so the document is modelled
at this granularity rather than as raw text. -/
inductive Markup where
  | headerEntry
  | libraryOpen (name : String)
  | libraryClose (name : String)
  | textureEntry (imageId : String)
  | materialEntry (id : String)
  | cameraEntry (id : String)
  | lightEntry (id : String)
  | geometryEntry (id : String)
  | controllerEntry (meshName : String) (skeletonRef : String)
  | animationEntry (id : String) (skeletonRef : String)
  | nodeOpen (id : String) (name : String)
  | nodeClose
  | instanceRef (ref : String)
  | channelOpen (typeName : String)
  | channelClose (typeName : String)
  | colorEntry (typeName : String) (c : AiColor4D)
  | textureRef (imageId : String) (channel : Nat)
  | textureParam (imageId : String)
  | imageEntry (imageId : String)
  | floatEntry (typeName : String) (v : AiReal)
  | floatArrayData (id : String) (count : Nat)
  | accessorDecl (id : String) (count : Nat) (stride : Nat)

/-- The exporter state: the caches declared in the source class
(`mUniqueIds`, `mNodeIdMap`, `mObjectIdMap`, `mObjectNameMap`), the skeleton
root id with its source default `"skeleton_root"`, the output buffer and the
current indentation `startstr`.  `std::map` members become association lists;
the `std::array` of per-kind maps becomes a function out of `AiObjectType`. -/
structure ColladaExporter where
  mScene : AiScene
  mPath : String
  mFile : String
  mUniqueIds : List String
  mNodeIdMap : List (Nat × String)
  mObjectIdMap : AiObjectType → List (Nat × String)
  mObjectNameMap : AiObjectType → List (Nat × String)
  mFoundSkeletonRootNodeID : String
  mOutput : List Markup
  startstr : String

/-- Modelled from the spec: the freshly constructed exporter state — per
spec 3, all side-tables are created empty at the start of one export pass,
the skeleton root id starts at its source default `"skeleton_root"` (header
line 136), the output is empty and the indentation is at root level. -/
def freshExporter (s : AiScene) (path file : String) : ColladaExporter :=
  { mScene := s
    mPath := path
    mFile := file
    mUniqueIds := []
    mNodeIdMap := []
    mObjectIdMap := fun _ => []
    mObjectNameMap := fun _ => []
    mFoundSkeletonRootNodeID := "skeleton_root"
    mOutput := []
    startstr := "" }

/-- Modelled from the spec: the `ColladaExporter` constructor (body absent
from the header) — per spec 7, a null/absent source scene is a fatal
precondition violation at construction time, before any writing begins
(`none` models the fatal fault); otherwise the pass starts from the fresh
state. -/
def mkColladaExporter (pScene : Option AiScene) (path file : String) :
    Option ColladaExporter :=
  match pScene with
  | none => none
  | some s => some (freshExporter s path file)

/-- Modelled from the spec: sanitization of a source name to a safe character
set (spec 4.1); unsafe characters are replaced by an underscore. -/
def isSafeIdChar (c : Char) : Bool :=
  c.isAlphanum || c == '_' || c == '-' || c == '.'

def sanitizeName (s : String) : String :=
  String.mk (s.data.map (fun c => if isSafeIdChar c then c else '_'))

/-- Modelled from the spec: the candidate identifier of a node is derived from
its declared name, sanitized, with a synthetic fallback for anonymous
nodes. -/
def nodeIdCandidate (nm : String) : String :=
  sanitizeName (if nm = "" then "node" else nm)

/-- Modelled from the spec: bone candidates are drawn from a bone-specific
leading marker so that the bone namespace is kept apart from plain node
names even when the source names coincide. -/
def boneIdCandidate (nm : String) : String :=
  "bone_" ++ sanitizeName (if nm = "" then "bone" else nm)

/-- Shared cache-or-mint step for the `const void *`-keyed `mNodeIdMap`
(which caches both node and bone ids): return the cached id if the address is
known, otherwise mint a fresh id from the candidate, record it in
`mUniqueIds` and in the map. -/
def registerNodeKey (ex : ColladaExporter) (a : Nat) (candidate : String) :
    String × ColladaExporter :=
  match ex.mNodeIdMap.lookup a with
  | some id => (id, ex)
  | none =>
    let result := MakeUniqueId ex.mUniqueIds candidate
    (result, { ex with
                mUniqueIds := result :: ex.mUniqueIds
                mNodeIdMap := (a, result) :: ex.mNodeIdMap })

/-- Modelled from the spec: `GetNodeUniqueId` (declaration only in the
header) — get or create a unique node id string, cached by the node's
address. -/
def GetNodeUniqueId (ex : ColladaExporter) (node : AiNode) :
    String × ColladaExporter :=
  registerNodeKey ex node.addr (nodeIdCandidate node.mName)

/-- Modelled from the spec: `GetBoneUniqueId` (declaration only in the
header) — same contract as `GetNodeUniqueId` but with the bone-specific
candidate form. -/
def GetBoneUniqueId (ex : ColladaExporter) (bone : AiBone) :
    String × ColladaExporter :=
  registerNodeKey ex bone.addr (boneIdCandidate bone.mName)

/-- Display name of an object kind, used for the synthetic fallback name. -/
def typeNameOf : AiObjectType → String
  | .Mesh => "mesh"
  | .Material => "material"
  | .Animation => "animation"
  | .Light => "light"
  | .Camera => "camera"

/-- The name pool the scene exposes for one object kind. -/
def objectPoolNames (s : AiScene) : AiObjectType → List String
  | .Mesh => s.mMeshes.map AiMesh.mName
  | .Material => s.mMaterials
  | .Animation => s.mAnimations
  | .Light => s.mLights
  | .Camera => s.mCameras

/-- Modelled from the spec: the declared name of the `(kind, index)` object,
falling back to a synthetic `kind-index` string when the source object has no
declared name (spec 4.1). -/
def objectNameSource (s : AiScene) (t : AiObjectType) (i : Nat) : String :=
  match (objectPoolNames s t).get? i with
  | some nm => if nm = "" then typeNameOf t ++ "-" ++ natDecStr i else nm
  | none => typeNameOf t ++ "-" ++ natDecStr i

/-- Modelled from the spec: `GetObjectUniqueId` (declaration only in the
header) — get or create a unique id string for the given scene object index,
cached by `(kind, index)` in the per-kind map, drawing freshness from the
same `mUniqueIds` pool as node and bone ids. -/
def GetObjectUniqueId (ex : ColladaExporter) (t : AiObjectType) (i : Nat) :
    String × ColladaExporter :=
  match (ex.mObjectIdMap t).lookup i with
  | some id => (id, ex)
  | none =>
    let result := MakeUniqueId ex.mUniqueIds
      (sanitizeName (objectNameSource ex.mScene t i))
    (result, { ex with
                mUniqueIds := result :: ex.mUniqueIds
                mObjectIdMap := fun t2 =>
                  if t2 = t then (i, result) :: ex.mObjectIdMap t
                  else ex.mObjectIdMap t2 })

/-- All names issued so far, the uniqueness pool for `GetObjectName`
(independent from the identifier pool, spec invariant 3). -/
def allObjectNames (ex : ColladaExporter) : List String :=
  ([AiObjectType.Mesh, .Material, .Animation, .Light, .Camera].map
    (fun t => (ex.mObjectNameMap t).map Prod.snd)).flatten

/-- Modelled from the spec: `GetObjectName` (declaration only in the header)
— get or create a display name for the given scene object index, cached by
`(kind, index)`, with collisions resolved against the independent name
pool. -/
def GetObjectName (ex : ColladaExporter) (t : AiObjectType) (i : Nat) :
    String × ColladaExporter :=
  match (ex.mObjectNameMap t).lookup i with
  | some nm => (nm, ex)
  | none =>
    let result := MakeUniqueId (allObjectNames ex) (objectNameSource ex.mScene t i)
    (result, { ex with
                mObjectNameMap := fun t2 =>
                  if t2 = t then (i, result) :: ex.mObjectNameMap t
                  else ex.mObjectNameMap t2 })

/-! ### Identifier-registry invariants -/

/-- An identity registered in the Identifier Registry: either an address (the
`const void *` key used for nodes and bones) or a `(kind, index)` pair. -/
inductive IdKey where
  | nodeAddr (a : Nat)
  | obj (t : AiObjectType) (i : Nat)
deriving DecidableEq

/-- The identifier cached for one identity, across the two id caches. -/
def lookupIdKey (ex : ColladaExporter) : IdKey → Option String
  | .nodeAddr a => ex.mNodeIdMap.lookup a
  | .obj t i => (ex.mObjectIdMap t).lookup i

/-- Registry invariant: every cached identifier is recorded in `mUniqueIds`,
and distinct identities hold distinct identifiers. -/
structure RegInv (ex : ColladaExporter) : Prop where
  mem_unique : ∀ k v, lookupIdKey ex k = some v → v ∈ ex.mUniqueIds
  inj : ∀ k1 k2 v1 v2, lookupIdKey ex k1 = some v1 → lookupIdKey ex k2 = some v2 →
    k1 ≠ k2 → v1 ≠ v2

theorem registerNodeKey_lookup_self (ex : ColladaExporter) (a : Nat) (cand : String) :
    (registerNodeKey ex a cand).2.mNodeIdMap.lookup a =
      some (registerNodeKey ex a cand).1 := by
  unfold registerNodeKey
  cases h : ex.mNodeIdMap.lookup a with
  | some id => simpa using h
  | none => simp [List.lookup_cons]

theorem registerNodeKey_uniqueIds_mono (ex : ColladaExporter) (a : Nat) (cand : String)
    {v : String} (hv : v ∈ ex.mUniqueIds) :
    v ∈ (registerNodeKey ex a cand).2.mUniqueIds := by
  unfold registerNodeKey
  cases h : ex.mNodeIdMap.lookup a with
  | some id => simpa using hv
  | none => simp [hv]

theorem registerNodeKey_result_mem (ex : ColladaExporter) (a : Nat) (cand : String)
    (hinv : RegInv ex) :
    (registerNodeKey ex a cand).1 ∈ (registerNodeKey ex a cand).2.mUniqueIds := by
  unfold registerNodeKey
  cases h : ex.mNodeIdMap.lookup a with
  | some id =>
    simpa using hinv.mem_unique (.nodeAddr a) id h
  | none => simp

theorem registerNodeKey_lookup_preserved (ex : ColladaExporter) (a : Nat) (cand : String)
    {k : IdKey} {v : String} (hv : lookupIdKey ex k = some v) :
    lookupIdKey (registerNodeKey ex a cand).2 k = some v := by
  unfold registerNodeKey
  cases h : ex.mNodeIdMap.lookup a with
  | some id => simpa using hv
  | none =>
    cases k with
    | nodeAddr a2 =>
      have hne : a2 ≠ a := by
        intro heq
        rw [heq] at hv
        simp only [lookupIdKey] at hv
        rw [h] at hv
        exact Option.noConfusion hv
      have hbeq : (a2 == a) = false := beq_eq_false_iff_ne.mpr hne
      simpa [lookupIdKey, List.lookup_cons, hbeq] using hv
    | obj t i => simpa [lookupIdKey] using hv

theorem registerNodeKey_lookup_cases (ex : ColladaExporter) (a : Nat) (cand : String)
    {k : IdKey} {v : String}
    (hv : lookupIdKey (registerNodeKey ex a cand).2 k = some v) :
    lookupIdKey ex k = some v ∨
      (k = .nodeAddr a ∧ v = (registerNodeKey ex a cand).1 ∧
        ex.mNodeIdMap.lookup a = none) := by
  revert hv
  unfold registerNodeKey
  cases h : ex.mNodeIdMap.lookup a with
  | some id =>
    intro hv
    exact Or.inl hv
  | none =>
    intro hv
    cases k with
    | nodeAddr a2 =>
      by_cases hne : a2 = a
      · subst hne
        simp only [lookupIdKey, List.lookup_cons, beq_self_eq_true] at hv
        right
        refine ⟨rfl, ?_, by simp [h]⟩
        simpa using hv.symm
      · left
        have hbeq : (a2 == a) = false := beq_eq_false_iff_ne.mpr hne
        simpa [lookupIdKey, List.lookup_cons, hbeq] using hv
    | obj t i =>
      left
      simpa [lookupIdKey] using hv

theorem registerNodeKey_fresh (ex : ColladaExporter) (a : Nat) (cand : String)
    (hmiss : ex.mNodeIdMap.lookup a = none) :
    (registerNodeKey ex a cand).1 ∉ ex.mUniqueIds := by
  unfold registerNodeKey
  rw [hmiss]
  exact MakeUniqueId_not_mem ex.mUniqueIds cand

theorem registerNodeKey_inv (ex : ColladaExporter) (a : Nat) (cand : String)
    (hinv : RegInv ex) : RegInv (registerNodeKey ex a cand).2 := by
  constructor
  · intro k v hv
    rcases registerNodeKey_lookup_cases ex a cand hv with hold | ⟨hk, hveq, hmiss⟩
    · exact registerNodeKey_uniqueIds_mono ex a cand (hinv.mem_unique k v hold)
    · rw [hveq]
      exact registerNodeKey_result_mem ex a cand hinv
  · intro k1 k2 v1 v2 h1 h2 hne
    rcases registerNodeKey_lookup_cases ex a cand h1 with hold1 | ⟨hk1, hv1, hmiss⟩ <;>
      rcases registerNodeKey_lookup_cases ex a cand h2 with hold2 | ⟨hk2, hv2, hmiss2⟩
    · exact hinv.inj k1 k2 v1 v2 hold1 hold2 hne
    · rw [hv2]
      intro hcontra
      exact registerNodeKey_fresh ex a cand hmiss2
        (hcontra ▸ hinv.mem_unique k1 v1 hold1)
    · rw [hv1]
      intro hcontra
      exact registerNodeKey_fresh ex a cand hmiss
        (hcontra.symm ▸ hinv.mem_unique k2 v2 hold2)
    · exact absurd (hk1.trans hk2.symm) hne

theorem GetObjectUniqueId_lookup_self (ex : ColladaExporter) (t : AiObjectType) (i : Nat) :
    ((GetObjectUniqueId ex t i).2.mObjectIdMap t).lookup i =
      some (GetObjectUniqueId ex t i).1 := by
  unfold GetObjectUniqueId
  cases h : (ex.mObjectIdMap t).lookup i with
  | some id => simpa using h
  | none => simp [List.lookup_cons]

theorem GetObjectUniqueId_uniqueIds_mono (ex : ColladaExporter) (t : AiObjectType) (i : Nat)
    {v : String} (hv : v ∈ ex.mUniqueIds) :
    v ∈ (GetObjectUniqueId ex t i).2.mUniqueIds := by
  unfold GetObjectUniqueId
  cases h : (ex.mObjectIdMap t).lookup i with
  | some id => simpa using hv
  | none => simp [hv]

theorem GetObjectUniqueId_lookup_preserved (ex : ColladaExporter) (t : AiObjectType) (i : Nat)
    {k : IdKey} {v : String} (hv : lookupIdKey ex k = some v) :
    lookupIdKey (GetObjectUniqueId ex t i).2 k = some v := by
  unfold GetObjectUniqueId
  cases h : (ex.mObjectIdMap t).lookup i with
  | some id => simpa using hv
  | none =>
    cases k with
    | nodeAddr a2 => simpa [lookupIdKey] using hv
    | obj t2 i2 =>
      by_cases ht : t2 = t
      · subst ht
        have hne : i2 ≠ i := by
          intro heq
          rw [heq] at hv
          simp only [lookupIdKey] at hv
          rw [h] at hv
          exact Option.noConfusion hv
        have hbeq : (i2 == i) = false := beq_eq_false_iff_ne.mpr hne
        simpa [lookupIdKey, List.lookup_cons, hbeq] using hv
      · simpa [lookupIdKey, ht] using hv

theorem GetObjectUniqueId_lookup_cases (ex : ColladaExporter) (t : AiObjectType) (i : Nat)
    {k : IdKey} {v : String}
    (hv : lookupIdKey (GetObjectUniqueId ex t i).2 k = some v) :
    lookupIdKey ex k = some v ∨
      (k = .obj t i ∧ v = (GetObjectUniqueId ex t i).1 ∧
        (ex.mObjectIdMap t).lookup i = none) := by
  revert hv
  unfold GetObjectUniqueId
  cases h : (ex.mObjectIdMap t).lookup i with
  | some id =>
    intro hv
    exact Or.inl hv
  | none =>
    intro hv
    cases k with
    | nodeAddr a2 =>
      left
      simpa [lookupIdKey] using hv
    | obj t2 i2 =>
      by_cases ht : t2 = t
      · subst ht
        by_cases hi : i2 = i
        · subst hi
          simp only [lookupIdKey, if_pos rfl, List.lookup_cons, beq_self_eq_true] at hv
          right
          refine ⟨rfl, ?_, by simp [h]⟩
          simpa using hv.symm
        · left
          have hbeq : (i2 == i) = false := beq_eq_false_iff_ne.mpr hi
          simpa [lookupIdKey, List.lookup_cons, hbeq] using hv
      · left
        simpa [lookupIdKey, ht] using hv

theorem GetObjectUniqueId_fresh (ex : ColladaExporter) (t : AiObjectType) (i : Nat)
    (hmiss : (ex.mObjectIdMap t).lookup i = none) :
    (GetObjectUniqueId ex t i).1 ∉ ex.mUniqueIds := by
  unfold GetObjectUniqueId
  rw [hmiss]
  exact MakeUniqueId_not_mem ex.mUniqueIds _

theorem GetObjectUniqueId_result_mem (ex : ColladaExporter) (t : AiObjectType) (i : Nat)
    (hinv : RegInv ex) :
    (GetObjectUniqueId ex t i).1 ∈ (GetObjectUniqueId ex t i).2.mUniqueIds := by
  unfold GetObjectUniqueId
  cases h : (ex.mObjectIdMap t).lookup i with
  | some id =>
    simpa using hinv.mem_unique (.obj t i) id h
  | none => simp

theorem GetObjectUniqueId_inv (ex : ColladaExporter) (t : AiObjectType) (i : Nat)
    (hinv : RegInv ex) : RegInv (GetObjectUniqueId ex t i).2 := by
  constructor
  · intro k v hv
    rcases GetObjectUniqueId_lookup_cases ex t i hv with hold | ⟨hk, hveq, hmiss⟩
    · exact GetObjectUniqueId_uniqueIds_mono ex t i (hinv.mem_unique k v hold)
    · rw [hveq]
      exact GetObjectUniqueId_result_mem ex t i hinv
  · intro k1 k2 v1 v2 h1 h2 hne
    rcases GetObjectUniqueId_lookup_cases ex t i h1 with hold1 | ⟨hk1, hv1, hmiss⟩ <;>
      rcases GetObjectUniqueId_lookup_cases ex t i h2 with hold2 | ⟨hk2, hv2, hmiss2⟩
    · exact hinv.inj k1 k2 v1 v2 hold1 hold2 hne
    · rw [hv2]
      intro hcontra
      exact GetObjectUniqueId_fresh ex t i hmiss2
        (hcontra ▸ hinv.mem_unique k1 v1 hold1)
    · rw [hv1]
      intro hcontra
      exact GetObjectUniqueId_fresh ex t i hmiss
        (hcontra.symm ▸ hinv.mem_unique k2 v2 hold2)
    · exact absurd (hk1.trans hk2.symm) hne

theorem GetObjectName_id_state (ex : ColladaExporter) (t : AiObjectType) (i : Nat) :
    (GetObjectName ex t i).2.mUniqueIds = ex.mUniqueIds ∧
      (∀ k, lookupIdKey (GetObjectName ex t i).2 k = lookupIdKey ex k) := by
  unfold GetObjectName
  cases h : (ex.mObjectNameMap t).lookup i with
  | some nm => exact ⟨rfl, fun k => rfl⟩
  | none =>
    refine ⟨rfl, fun k => ?_⟩
    cases k <;> rfl

theorem GetObjectName_inv (ex : ColladaExporter) (t : AiObjectType) (i : Nat)
    (hinv : RegInv ex) : RegInv (GetObjectName ex t i).2 := by
  obtain ⟨hu, hl⟩ := GetObjectName_id_state ex t i
  constructor
  · intro k v hv
    rw [hl k] at hv
    rw [hu]
    exact hinv.mem_unique k v hv
  · intro k1 k2 v1 v2 h1 h2 hne
    rw [hl k1] at h1
    rw [hl k2] at h2
    exact hinv.inj k1 k2 v1 v2 h1 h2 hne

/-! ### One export pass as a sequence of registry operations -/

/-- One identifier-registry operation of an export pass. -/
inductive IdRequest where
  | node (n : AiNode)
  | bone (b : AiBone)
  | object (t : AiObjectType) (i : Nat)
  | objectName (t : AiObjectType) (i : Nat)

/-- Apply one registry operation, keeping only the updated state. -/
def applyIdRequest (ex : ColladaExporter) : IdRequest → ColladaExporter
  | .node n => (GetNodeUniqueId ex n).2
  | .bone b => (GetBoneUniqueId ex b).2
  | .object t i => (GetObjectUniqueId ex t i).2
  | .objectName t i => (GetObjectName ex t i).2

/-- Run a sequence of registry operations of one export pass. -/
def runIdRequests (ex : ColladaExporter) (reqs : List IdRequest) : ColladaExporter :=
  reqs.foldl applyIdRequest ex

theorem applyIdRequest_inv (ex : ColladaExporter) (r : IdRequest)
    (hinv : RegInv ex) : RegInv (applyIdRequest ex r) := by
  cases r with
  | node n => exact registerNodeKey_inv ex n.addr _ hinv
  | bone b => exact registerNodeKey_inv ex b.addr _ hinv
  | object t i => exact GetObjectUniqueId_inv ex t i hinv
  | objectName t i => exact GetObjectName_inv ex t i hinv

theorem runIdRequests_inv (reqs : List IdRequest) :
    ∀ ex : ColladaExporter, RegInv ex → RegInv (runIdRequests ex reqs) := by
  induction reqs with
  | nil =>
    intro ex hinv
    exact hinv
  | cons r rs ih =>
    intro ex hinv
    exact ih (applyIdRequest ex r) (applyIdRequest_inv ex r hinv)

theorem mkColladaExporter_inv (s : AiScene) (path file : String)
    {ex0 : ColladaExporter} (hmk : mkColladaExporter (some s) path file = some ex0) :
    RegInv ex0 := by
  simp only [mkColladaExporter, Option.some.injEq] at hmk
  subst hmk
  constructor
  · intro k v hv
    cases k <;> simp [lookupIdKey, freshExporter] at hv
  · intro k1 k2 v1 v2 h1 h2 hne
    cases k1 <;> simp [lookupIdKey, freshExporter] at h1

/-- An exporter state reachable within one export pass: freshly constructed
caches followed by any sequence of registry operations. -/
def ReachableExporter (ex : ColladaExporter) : Prop :=
  ∃ s path file ex0 reqs, mkColladaExporter (some s) path file = some ex0 ∧
    runIdRequests ex0 reqs = ex

theorem ReachableExporter_inv {ex : ColladaExporter} (h : ReachableExporter ex) :
    RegInv ex := by
  obtain ⟨s, path, file, ex0, reqs, hmk, hrun⟩ := h
  rw [← hrun]
  exact runIdRequests_inv reqs ex0 (mkColladaExporter_inv s path file hmk)

/-! ### The indented document writer -/

/-- Translation of the source `PushTag` body:
`startstr.append("  ")` — one indentation level is two spaces. -/
def pushTagStr (s : String) : String := s ++ "  "

/-- Translation of the source `PopTag` body:
`ai_assert(startstr.length() > 1); startstr.erase(startstr.length() - 2);`.
Erasing from position `length - 2` removes the last two characters.  The
assertion is, per spec 4.4 and 7, a fatal unrecoverable programming-error
fault, modelled as `none`. -/
def popTagStr (s : String) : Option String :=
  if s.length > 1 then some (String.mk s.data.dropLast.dropLast) else none

theorem popTagStr_pushTagStr (s : String) : popTagStr (pushTagStr s) = some s := by
  unfold popTagStr pushTagStr
  have hlen : (s ++ "  ").length = s.length + 2 := String.length_append s "  "
  rw [hlen, if_pos (by omega)]
  have hdata : (s ++ "  ").data = (s.data ++ [' ']) ++ [' '] := by
    rw [strData_append]
    simp
  rw [hdata, List.dropLast_concat, List.dropLast_concat]

/-- `PushTag` on the exporter state. -/
def PushTag (ex : ColladaExporter) : ColladaExporter :=
  { ex with startstr := pushTagStr ex.startstr }

/-- `PopTag` on the exporter state (`none` models the fatal assertion). -/
def PopTag (ex : ColladaExporter) : Option ColladaExporter :=
  (popTagStr ex.startstr).map (fun s => { ex with startstr := s })

/-- One indentation operation, for stating the push/pop balance claims. -/
inductive TagOp where
  | push
  | pop
deriving DecidableEq, Repr

/-- Run a sequence of indentation operations on the raw indentation string. -/
def runTags (s : String) : List TagOp → Option String
  | [] => some s
  | .push :: rest => runTags (pushTagStr s) rest
  | .pop :: rest =>
    match popTagStr s with
    | some s2 => runTags s2 rest
    | none => none

/-- The indentation string at nesting depth `d`. -/
def indentOf (d : Nat) : String := String.mk (List.replicate (2 * d) ' ')

/-- Whether, starting from `d` unmatched pushes, every pop of the sequence is
preceded by a matching unmatched push. -/
def tagOpsBalancedFrom : Nat → List TagOp → Bool
  | _, [] => true
  | d, .push :: rest => tagOpsBalancedFrom (d + 1) rest
  | d, .pop :: rest => decide (0 < d) && tagOpsBalancedFrom (d - 1) rest

theorem pushTagStr_indentOf (d : Nat) : pushTagStr (indentOf d) = indentOf (d + 1) := by
  unfold pushTagStr indentOf
  have h2 : 2 * (d + 1) = 2 * d + 1 + 1 := by ring
  rw [h2, List.replicate_succ', List.replicate_succ']
  apply strEq_of_data
  rw [strData_append]
  simp

theorem popTagStr_indentOf (d : Nat) :
    popTagStr (indentOf (d + 1)) = some (indentOf d) := by
  rw [← pushTagStr_indentOf]
  exact popTagStr_pushTagStr (indentOf d)

theorem runTags_balanced (ops : List TagOp) :
    ∀ d, tagOpsBalancedFrom d ops = true → (runTags (indentOf d) ops).isSome := by
  induction ops with
  | nil =>
    intro d _
    simp [runTags]
  | cons op rest ih =>
    intro d hbal
    cases op with
    | push =>
      simp only [tagOpsBalancedFrom] at hbal
      simpa [runTags, pushTagStr_indentOf] using ih (d + 1) hbal
    | pop =>
      simp only [tagOpsBalancedFrom, Bool.and_eq_true, decide_eq_true_eq] at hbal
      obtain ⟨hd, hrest⟩ := hbal
      obtain ⟨d2, rfl⟩ : ∃ d2, d = d2 + 1 := ⟨d - 1, by omega⟩
      simp only [runTags, popTagStr_indentOf]
      simpa using ih (d2 + 1 - 1) hrest

/-! ### The library writers and the scene-graph emitter -/

/-- Append one markup item to the output buffer. -/
def emit (ex : ColladaExporter) (m : Markup) : ColladaExporter :=
  { ex with mOutput := ex.mOutput ++ [m] }

/-- Open a library element, indent, run the body, unindent, close. -/
def withTag (name : String) (body : ColladaExporter → Option ColladaExporter)
    (ex : ColladaExporter) : Option ColladaExporter :=
  (body (PushTag (emit ex (Markup.libraryOpen name)))).bind fun ex2 =>
    (PopTag ex2).map fun ex3 => emit ex3 (Markup.libraryClose name)

/-- Modelled from the spec: the textures library writer — one entry per
embedded/referenced texture (spec 4.5 step 2). -/
def WriteTextures (ex : ColladaExporter) : Option ColladaExporter :=
  withTag "library_images" (fun ex1 =>
    some (ex1.mScene.mTextures.foldl (fun ex2 t => emit ex2 (Markup.textureEntry t)) ex1)) ex

/-- Emit one registry-identified entry per pool index of the given kind. -/
def writeIndexedEntries (t : AiObjectType) (mk : String → Markup)
    (idxs : List Nat) (ex : ColladaExporter) : ColladaExporter :=
  idxs.foldl (fun ex2 i =>
    let p := GetObjectUniqueId ex2 t i
    emit p.2 (mk p.1)) ex

/-- Modelled from the spec: the materials library writer — one entry per
material, ids minted through the Identifier Registry (spec 4.5 step 3). -/
def WriteMaterials (ex : ColladaExporter) : Option ColladaExporter :=
  withTag "library_effects" (fun ex1 =>
    some (writeIndexedEntries .Material Markup.materialEntry
      (List.range ex1.mScene.mMaterials.length) ex1)) ex

/-- Modelled from the spec: the cameras library writer (spec 4.5 step 4). -/
def WriteCamerasLibrary (ex : ColladaExporter) : Option ColladaExporter :=
  withTag "library_cameras" (fun ex1 =>
    some (writeIndexedEntries .Camera Markup.cameraEntry
      (List.range ex1.mScene.mCameras.length) ex1)) ex

/-- Modelled from the spec: the lights library writer (spec 4.5 step 4). -/
def WriteLightsLibrary (ex : ColladaExporter) : Option ColladaExporter :=
  withTag "library_lights" (fun ex1 =>
    some (writeIndexedEntries .Light Markup.lightEntry
      (List.range ex1.mScene.mLights.length) ex1)) ex

/-- Modelled from the spec: `WriteController` — one skin-controller entry per
skinned mesh, registering its bones and binding the entry to the skeleton
root identifier (spec 4.5 step 5). -/
def WriteController (ex : ColladaExporter) (i : Nat) (mesh : AiMesh) :
    ColladaExporter :=
  if mesh.mBones.isEmpty then ex
  else
    let ex1 := mesh.mBones.foldl (fun ex2 b => (GetBoneUniqueId ex2 b).2) ex
    let p := GetObjectUniqueId ex1 .Mesh i
    emit p.2 (Markup.controllerEntry mesh.mName p.2.mFoundSkeletonRootNodeID)

/-- Modelled from the spec: the controllers library writer (spec 4.5 step 5). -/
def WriteControllerLibrary (ex : ColladaExporter) : Option ColladaExporter :=
  withTag "library_controllers" (fun ex1 =>
    some (ex1.mScene.mMeshes.enum.foldl
      (fun ex2 p => WriteController ex2 p.1 p.2) ex1)) ex

/-- Modelled from the spec: the geometry library writer — one entry per mesh
(spec 4.5 step 6). -/
def WriteGeometryLibrary (ex : ColladaExporter) : Option ColladaExporter :=
  withTag "library_geometries" (fun ex1 =>
    some (writeIndexedEntries .Mesh Markup.geometryEntry
      (List.range ex1.mScene.mMeshes.length) ex1)) ex

/-- Modelled from the spec: the animations library writer — one entry per
animation, referencing the skeleton root identifier (spec 4.5 step 7 and
spec 2: the skeleton root node id is needed by controller/animation
writers). -/
def WriteAnimationsLibrary (ex : ColladaExporter) : Option ColladaExporter :=
  withTag "library_animations" (fun ex1 =>
    some ((List.range ex1.mScene.mAnimations.length).foldl
      (fun ex2 i =>
        let p := GetObjectUniqueId ex2 .Animation i
        emit p.2 (Markup.animationEntry p.1 p.2.mFoundSkeletonRootNodeID)) ex1)) ex

/-- Emit the instance references attached to a node (spec 4.5 step 8). -/
def WriteInstances (ex : ColladaExporter) (idxs : List Nat) : ColladaExporter :=
  idxs.foldl (fun ex2 i =>
    let p := GetObjectUniqueId ex2 .Mesh i
    emit p.2 (Markup.instanceRef p.1)) ex

mutual

/-- Modelled from the spec: `WriteNode` (declaration only in the header) —
recursive node-tree emission: open the element with the node's unique id and
name, emit attached instance references, recurse into the children, close the
element (spec 4.5 step 8). -/
def WriteNode (ex : ColladaExporter) (pNode : AiNode) : Option ColladaExporter :=
  match pNode with
  | .mk a nm sk ms cs =>
    (WriteNodeList
        (WriteInstances
          (PushTag
            (emit (GetNodeUniqueId ex (.mk a nm sk ms cs)).2
              (Markup.nodeOpen (GetNodeUniqueId ex (.mk a nm sk ms cs)).1 nm)))
          ms)
        cs).bind fun ex3 =>
      (PopTag ex3).map fun ex4 => emit ex4 Markup.nodeClose

/-- Recursion over a child list for `WriteNode`. -/
def WriteNodeList (ex : ColladaExporter) : List AiNode → Option ColladaExporter
  | [] => some ex
  | c :: rest => (WriteNode ex c).bind fun ex1 => WriteNodeList ex1 rest

end

/-- Modelled from the spec: the scene library writer — recursive node-tree
emission from the scene root (spec 4.5 step 8). -/
def WriteSceneLibrary (ex : ColladaExporter) : Option ColladaExporter :=
  withTag "library_visual_scenes" (fun ex1 =>
    match ex1.mScene.mRootNode with
    | none => some ex1
    | some root => WriteNode ex1 root) ex

mutual

/-- Modelled from the spec: recognition of the skeleton root — the first node
of the (depth-first) traversal order recognized as the root of a bone
hierarchy (spec 4.5 step 8); recognition itself is caller data carried on the
node. -/
def findSkeletonRoot (n : AiNode) : Option AiNode :=
  match n with
  | .mk a nm sk ms cs =>
    if sk then some (.mk a nm sk ms cs) else findSkeletonRootList cs

/-- Recursion over a child list for `findSkeletonRoot`. -/
def findSkeletonRootList : List AiNode → Option AiNode
  | [] => none
  | c :: rest =>
    match findSkeletonRoot c with
    | some r => some r
    | none => findSkeletonRootList rest

end

/-- The skeleton root of a scene, if any node is recognized as one. -/
def sceneSkeletonRoot (s : AiScene) : Option AiNode :=
  s.mRootNode.bind findSkeletonRoot

/-- Modelled from the spec: the skeleton root id must be derivable and cached
before the controller/animation libraries are written (spec 4.5 step 8
requires pre-scanning for the root independent of full tree emission); when a
root is recognized, its identifier is minted and recorded in
`mFoundSkeletonRootNodeID`, otherwise the source default `"skeleton_root"`
stays. -/
def FindSkeletonRootId (ex : ColladaExporter) : ColladaExporter :=
  match sceneSkeletonRoot ex.mScene with
  | none => ex
  | some r =>
    let p := GetNodeUniqueId ex r
    { p.2 with mFoundSkeletonRootNodeID := p.1 }

/-- The seven object libraries followed by the scene library, in the fixed
pass order of spec 2. -/
def writePreSceneLibraries (ex : ColladaExporter) : Option ColladaExporter :=
  WriteTextures ex >>= WriteMaterials >>= WriteCamerasLibrary >>=
    WriteLightsLibrary >>= WriteControllerLibrary >>= WriteGeometryLibrary >>=
    WriteAnimationsLibrary

/-- Modelled from the spec: `WriteFile` — the single top-to-bottom pass:
skeleton-root pre-scan, document root element, header, the object libraries,
the scene library, close of the document root (spec 2). -/
def WriteFile (ex : ColladaExporter) : Option ColladaExporter :=
  (writePreSceneLibraries
      (emit (PushTag (emit (FindSkeletonRootId ex) (Markup.libraryOpen "COLLADA")))
        Markup.headerEntry)).bind fun ex2 =>
    (WriteSceneLibrary ex2).bind fun ex3 =>
      (PopTag ex3).map fun ex4 => emit ex4 (Markup.libraryClose "COLLADA")

/-! ### Material surface rendering and the numeric array encoder -/

/-- Modelled from the spec: `WriteImageEntry` (declaration only in the
header) — an image-library entry is emitted only if the surface carries a
texture (spec 4.2). -/
def WriteImageEntry (pSurface : Surface) (pImageId : String) : List Markup :=
  if pSurface.exist = true ∧ pSurface.texture ≠ "" then
    [Markup.imageEntry pImageId]
  else []

/-- Modelled from the spec: `WriteTextureParamEntry` (declaration only in the
header) — the parameters necessary for referencing a texture in an effect
entry, emitted only when a texture is bound (spec 4.2). -/
def WriteTextureParamEntry (pSurface : Surface) (pTypeName : String)
    (pMaterialId : String) : List Markup :=
  if pSurface.exist = true ∧ pSurface.texture ≠ "" then
    [Markup.textureParam pMaterialId]
  else []

/-- Modelled from the spec: `WriteTextureColorEntry` (declaration only in the
header) — a color-or-texture entry: nothing when the surface does not exist;
when a texture is bound, the texture reference markup (texture precedences
color, per the source comment on `Surface` and data-model invariant 4);
otherwise the flat-color markup (spec 4.2). -/
def WriteTextureColorEntry (pSurface : Surface) (pTypeName : String)
    (pImageId : String) : List Markup :=
  if pSurface.exist = false then []
  else if pSurface.texture = "" then
    [Markup.channelOpen pTypeName,
     Markup.colorEntry pTypeName pSurface.color,
     Markup.channelClose pTypeName]
  else
    [Markup.channelOpen pTypeName,
     Markup.textureRef pImageId pSurface.channel,
     Markup.channelClose pTypeName]

/-- Modelled from the spec: `WriteFloatEntry` (declaration only in the
header) — a scalar-value entry only when the property exists (spec 4.2). -/
def WriteFloatEntry (pProperty : Property) (pTypeName : String) : List Markup :=
  if pProperty.exist then [Markup.floatEntry pTypeName pProperty.value] else []

/-- Translation of the source `enum FloatDataType` (including the customized
animation-related `FloatType_Time`). -/
inductive FloatDataType where
  | FloatType_Vector
  | FloatType_TexCoord2
  | FloatType_TexCoord3
  | FloatType_Color
  | FloatType_Mat4x4
  | FloatType_Weight
  | FloatType_Time
deriving DecidableEq, Repr

/-- The per-element stride fixed by the data kind (spec 4.3 table). -/
def floatStrideOf : FloatDataType → Nat
  | .FloatType_Vector => 3
  | .FloatType_TexCoord2 => 2
  | .FloatType_TexCoord3 => 3
  | .FloatType_Color => 4
  | .FloatType_Mat4x4 => 16
  | .FloatType_Weight => 1
  | .FloatType_Time => 1

/-- Modelled from the spec: `WriteFloatArray` (declaration only in the
header) — emits the raw scalar array (`count` raw scalars, the length of the
data buffer) followed by accessor metadata declaring `count / stride` logical
elements, the stride fixed by the kind (spec 4.3). -/
def WriteFloatArray (pIdString : String) (pType : FloatDataType)
    (pData : List AiReal) : List Markup :=
  [Markup.floatArrayData pIdString pData.length,
   Markup.accessorDecl pIdString (pData.length / floatStrideOf pType)
     (floatStrideOf pType)]

/-- The number of logical elements the metadata of a markup fragment
declares (sum of the accessor counts it contains). -/
def declaredLogicalElements (ms : List Markup) : Nat :=
  (ms.map (fun m =>
    match m with
    | .accessorDecl _ c _ => c
    | _ => 0)).sum

/-- Whether a markup fragment contains any flat-color markup. -/
def containsColorEntry (ms : List Markup) : Prop :=
  ∃ tn c, Markup.colorEntry tn c ∈ ms

/-- Whether a markup fragment contains any texture-reference markup. -/
def containsTextureRef (ms : List Markup) : Prop :=
  ∃ im ch, Markup.textureRef im ch ∈ ms

/-! ### State discipline of the library writers -/

theorem registerNodeKey_misc (ex : ColladaExporter) (a : Nat) (cand : String) :
    (registerNodeKey ex a cand).2.startstr = ex.startstr ∧
      (registerNodeKey ex a cand).2.mOutput = ex.mOutput ∧
      (registerNodeKey ex a cand).2.mFoundSkeletonRootNodeID =
        ex.mFoundSkeletonRootNodeID ∧
      (registerNodeKey ex a cand).2.mScene = ex.mScene := by
  unfold registerNodeKey
  cases h : ex.mNodeIdMap.lookup a <;> simp

theorem GetObjectUniqueId_misc (ex : ColladaExporter) (t : AiObjectType) (i : Nat) :
    (GetObjectUniqueId ex t i).2.startstr = ex.startstr ∧
      (GetObjectUniqueId ex t i).2.mOutput = ex.mOutput ∧
      (GetObjectUniqueId ex t i).2.mFoundSkeletonRootNodeID =
        ex.mFoundSkeletonRootNodeID ∧
      (GetObjectUniqueId ex t i).2.mScene = ex.mScene := by
  unfold GetObjectUniqueId
  cases h : (ex.mObjectIdMap t).lookup i <;> simp

theorem GetObjectName_misc (ex : ColladaExporter) (t : AiObjectType) (i : Nat) :
    (GetObjectName ex t i).2.startstr = ex.startstr ∧
      (GetObjectName ex t i).2.mOutput = ex.mOutput ∧
      (GetObjectName ex t i).2.mFoundSkeletonRootNodeID =
        ex.mFoundSkeletonRootNodeID ∧
      (GetObjectName ex t i).2.mScene = ex.mScene := by
  unfold GetObjectName
  cases h : (ex.mObjectNameMap t).lookup i <;> simp

/-- A writer step (no indentation faults possible) that keeps the pass
discipline: indentation untouched, output only appended, the skeleton root id
and the scene untouched, cached identifiers stable, and every skeleton
reference it emits equal to the current skeleton root id. -/
def StepOk (f : ColladaExporter → ColladaExporter) : Prop :=
  ∀ ex, ∃ d : List Markup,
    (f ex).startstr = ex.startstr ∧
    (f ex).mOutput = ex.mOutput ++ d ∧
    (f ex).mFoundSkeletonRootNodeID = ex.mFoundSkeletonRootNodeID ∧
    (f ex).mScene = ex.mScene ∧
    (∀ k v, lookupIdKey ex k = some v → lookupIdKey (f ex) k = some v) ∧
    (∀ nm ref, Markup.controllerEntry nm ref ∈ d → ref = ex.mFoundSkeletonRootNodeID) ∧
    (∀ nm ref, Markup.animationEntry nm ref ∈ d → ref = ex.mFoundSkeletonRootNodeID)

/-- A fallible writer that keeps the same discipline and always succeeds. -/
def WriterOk (f : ColladaExporter → Option ColladaExporter) : Prop :=
  ∀ ex, ∃ ex2 d, f ex = some ex2 ∧
    ex2.startstr = ex.startstr ∧
    ex2.mOutput = ex.mOutput ++ d ∧
    ex2.mFoundSkeletonRootNodeID = ex.mFoundSkeletonRootNodeID ∧
    ex2.mScene = ex.mScene ∧
    (∀ k v, lookupIdKey ex k = some v → lookupIdKey ex2 k = some v) ∧
    (∀ nm ref, Markup.controllerEntry nm ref ∈ d → ref = ex.mFoundSkeletonRootNodeID) ∧
    (∀ nm ref, Markup.animationEntry nm ref ∈ d → ref = ex.mFoundSkeletonRootNodeID)

theorem StepOk_id : StepOk (fun ex => ex) := by
  intro ex
  exact ⟨[], by simp⟩

theorem StepOk_comp {f g : ColladaExporter → ColladaExporter}
    (hf : StepOk f) (hg : StepOk g) : StepOk (fun ex => g (f ex)) := by
  intro ex
  obtain ⟨d1, hs1, ho1, hr1, hc1, hl1, hctrl1, hanim1⟩ := hf ex
  obtain ⟨d2, hs2, ho2, hr2, hc2, hl2, hctrl2, hanim2⟩ := hg (f ex)
  refine ⟨d1 ++ d2, ?_, ?_, ?_, ?_, ?_, ?_, ?_⟩
  · rw [hs2, hs1]
  · rw [ho2, ho1, List.append_assoc]
  · rw [hr2, hr1]
  · rw [hc2, hc1]
  · intro k v hv
    exact hl2 k v (hl1 k v hv)
  · intro nm ref hm
    rcases List.mem_append.mp hm with hm | hm
    · exact hctrl1 nm ref hm
    · rw [← hr1]
      exact hctrl2 nm ref hm
  · intro nm ref hm
    rcases List.mem_append.mp hm with hm | hm
    · exact hanim1 nm ref hm
    · rw [← hr1]
      exact hanim2 nm ref hm

theorem StepOk_foldl {α : Type} {step : ColladaExporter → α → ColladaExporter}
    (hstep : ∀ x, StepOk (fun ex => step ex x)) (xs : List α) :
    StepOk (fun ex => xs.foldl step ex) := by
  induction xs with
  | nil =>
    simpa [List.foldl_nil] using StepOk_id
  | cons x rest ih =>
    have := StepOk_comp (hstep x) ih
    simpa [List.foldl_cons] using this

/-- `emit` of a markup item that is neither a controller nor an animation
entry is a good step. -/
theorem StepOk_emit_benign (m : Markup)
    (hm1 : ∀ nm ref, m ≠ Markup.controllerEntry nm ref)
    (hm2 : ∀ nm ref, m ≠ Markup.animationEntry nm ref) :
    StepOk (fun ex => emit ex m) := by
  intro ex
  refine ⟨[m], by simp [emit], by simp [emit], by simp [emit], by simp [emit],
    fun k v hv => by simpa [emit, lookupIdKey] using (by cases k <;> exact hv), ?_, ?_⟩
  · intro nm ref hmem
    exact absurd (List.mem_singleton.mp hmem).symm (hm1 nm ref)
  · intro nm ref hmem
    exact absurd (List.mem_singleton.mp hmem).symm (hm2 nm ref)

theorem lookupIdKey_emit (ex : ColladaExporter) (m : Markup) (k : IdKey) :
    lookupIdKey (emit ex m) k = lookupIdKey ex k := by
  cases k <;> rfl

theorem StepOk_registerNodeKey (a : Nat) (cand : String) :
    StepOk (fun ex => (registerNodeKey ex a cand).2) := by
  intro ex
  obtain ⟨hs, ho, hr, hc⟩ := registerNodeKey_misc ex a cand
  exact ⟨[], by simpa using hs, by simpa using ho, by simpa using hr,
    by simpa using hc,
    fun k v hv => registerNodeKey_lookup_preserved ex a cand hv,
    by simp, by simp⟩

theorem StepOk_objectEntry (t : AiObjectType) (mk : String → Markup) (i : Nat)
    (hmk1 : ∀ id nm ref, mk id ≠ Markup.controllerEntry nm ref)
    (hmk2 : ∀ id nm ref, mk id ≠ Markup.animationEntry nm ref) :
    StepOk (fun ex => emit (GetObjectUniqueId ex t i).2 (mk (GetObjectUniqueId ex t i).1)) := by
  intro ex
  obtain ⟨hs, ho, hr, hc⟩ := GetObjectUniqueId_misc ex t i
  refine ⟨[mk (GetObjectUniqueId ex t i).1], ?_, ?_, ?_, ?_, ?_, ?_, ?_⟩
  · simpa [emit] using hs
  · simpa [emit] using congrArg (fun l => l ++ [mk (GetObjectUniqueId ex t i).1]) ho
  · simpa [emit] using hr
  · simpa [emit] using hc
  · intro k v hv
    rw [lookupIdKey_emit]
    exact GetObjectUniqueId_lookup_preserved ex t i hv
  · intro nm ref hmem
    exact absurd (List.mem_singleton.mp hmem).symm (hmk1 _ nm ref)
  · intro nm ref hmem
    exact absurd (List.mem_singleton.mp hmem).symm (hmk2 _ nm ref)

theorem StepOk_writeIndexedEntries (t : AiObjectType) (mk : String → Markup)
    (idxs : List Nat)
    (hmk1 : ∀ id nm ref, mk id ≠ Markup.controllerEntry nm ref)
    (hmk2 : ∀ id nm ref, mk id ≠ Markup.animationEntry nm ref) :
    StepOk (writeIndexedEntries t mk idxs) := by
  have hstep : ∀ i : Nat,
      StepOk (fun ex => emit (GetObjectUniqueId ex t i).2 (mk (GetObjectUniqueId ex t i).1)) :=
    fun i => StepOk_objectEntry t mk i hmk1 hmk2
  have := StepOk_foldl hstep idxs
  intro ex
  obtain ⟨d, h⟩ := this ex
  exact ⟨d, h⟩

theorem StepOk_animationEntry (i : Nat) :
    StepOk (fun ex =>
      emit (GetObjectUniqueId ex .Animation i).2
        (Markup.animationEntry (GetObjectUniqueId ex .Animation i).1
          (GetObjectUniqueId ex .Animation i).2.mFoundSkeletonRootNodeID)) := by
  intro ex
  obtain ⟨hs, ho, hr, hc⟩ := GetObjectUniqueId_misc ex .Animation i
  refine ⟨[Markup.animationEntry (GetObjectUniqueId ex .Animation i).1
      (GetObjectUniqueId ex .Animation i).2.mFoundSkeletonRootNodeID],
    ?_, ?_, ?_, ?_, ?_, ?_, ?_⟩
  · simpa [emit] using hs
  · simp [emit, ho]
  · simpa [emit] using hr
  · simpa [emit] using hc
  · intro k v hv
    rw [lookupIdKey_emit]
    exact GetObjectUniqueId_lookup_preserved ex .Animation i hv
  · intro nm ref hmem
    simp at hmem
  · intro nm ref hmem
    rw [List.mem_singleton] at hmem
    cases hmem
    exact hr

theorem StepOk_boneStep (b : AiBone) :
    StepOk (fun ex => (GetBoneUniqueId ex b).2) := by
  have := StepOk_registerNodeKey b.addr (boneIdCandidate b.mName)
  intro ex
  obtain ⟨d, h⟩ := this ex
  exact ⟨d, h⟩

theorem StepOk_congr {f g : ColladaExporter → ColladaExporter}
    (h : ∀ ex, f ex = g ex) (hf : StepOk f) : StepOk g := by
  intro ex
  obtain ⟨d, hd⟩ := hf ex
  exact ⟨d, h ex ▸ hd⟩

theorem StepOk_controllerEmit (i : Nat) (nm : String) :
    StepOk (fun ex =>
      emit (GetObjectUniqueId ex .Mesh i).2
        (Markup.controllerEntry nm
          (GetObjectUniqueId ex .Mesh i).2.mFoundSkeletonRootNodeID)) := by
  intro ex
  obtain ⟨hs, ho, hr, hc⟩ := GetObjectUniqueId_misc ex .Mesh i
  refine ⟨[Markup.controllerEntry nm
      (GetObjectUniqueId ex .Mesh i).2.mFoundSkeletonRootNodeID],
    ?_, ?_, ?_, ?_, ?_, ?_, ?_⟩
  · simpa [emit] using hs
  · simp [emit, ho]
  · simpa [emit] using hr
  · simpa [emit] using hc
  · intro k v hv
    rw [lookupIdKey_emit]
    exact GetObjectUniqueId_lookup_preserved ex .Mesh i hv
  · intro nm2 ref hmem
    rw [List.mem_singleton] at hmem
    cases hmem
    exact hr
  · intro nm2 ref hmem
    simp at hmem

theorem StepOk_WriteController (i : Nat) (mesh : AiMesh) :
    StepOk (fun ex => WriteController ex i mesh) := by
  by_cases hempty : mesh.mBones.isEmpty = true
  · refine StepOk_congr (f := fun ex => ex) ?_ StepOk_id
    intro ex
    unfold WriteController
    rw [if_pos hempty]
  · have hbones : StepOk
        (fun ex => mesh.mBones.foldl (fun ex2 b => (GetBoneUniqueId ex2 b).2) ex) :=
      StepOk_foldl (fun b => StepOk_boneStep b) mesh.mBones
    have hcomp := StepOk_comp hbones (StepOk_controllerEmit i mesh.mName)
    refine StepOk_congr ?_ hcomp
    intro ex
    unfold WriteController
    rw [if_neg hempty]

theorem StepOk_controllerFold (meshes : List (Nat × AiMesh)) :
    StepOk (fun ex => meshes.foldl (fun ex2 p => WriteController ex2 p.1 p.2) ex) :=
  StepOk_foldl (fun p => StepOk_WriteController p.1 p.2) meshes

/-! ### WriterOk combinators -/

theorem WriterOk_withTag (name : String)
    {body : ColladaExporter → Option ColladaExporter} (hbody : WriterOk body) :
    WriterOk (withTag name body) := by
  intro ex
  obtain ⟨ex2, d, hrun, hs, ho, hr, hc, hl, hctrl, hanim⟩ :=
    hbody (PushTag (emit ex (Markup.libraryOpen name)))
  have hss : (PushTag (emit ex (Markup.libraryOpen name))).startstr =
      pushTagStr ex.startstr := rfl
  have hpop : PopTag ex2 = some { ex2 with startstr := ex.startstr } := by
    unfold PopTag
    rw [hs, hss, popTagStr_pushTagStr]
    rfl
  refine ⟨emit { ex2 with startstr := ex.startstr } (Markup.libraryClose name),
    Markup.libraryOpen name :: (d ++ [Markup.libraryClose name]),
    ?_, ?_, ?_, ?_, ?_, ?_, ?_, ?_⟩
  · unfold withTag
    rw [hrun, Option.some_bind, hpop]
    rfl
  · simp [emit]
  · have hout1 : (PushTag (emit ex (Markup.libraryOpen name))).mOutput =
        ex.mOutput ++ [Markup.libraryOpen name] := rfl
    simp [emit, PushTag, ho, hout1]
  · have hfld : (PushTag (emit ex (Markup.libraryOpen name))).mFoundSkeletonRootNodeID =
        ex.mFoundSkeletonRootNodeID := rfl
    simpa [emit] using hr.trans hfld
  · have hscn : (PushTag (emit ex (Markup.libraryOpen name))).mScene = ex.mScene := rfl
    simpa [emit] using hc.trans hscn
  · intro k v hv
    have hv1 : lookupIdKey (PushTag (emit ex (Markup.libraryOpen name))) k = some v := by
      cases k <;> exact hv
    have hv2 := hl k v hv1
    cases k <;> exact hv2
  · intro nm ref hmem
    simp only [List.mem_cons, List.mem_append, List.mem_singleton] at hmem
    rcases hmem with hm | hm | hm
    · exact absurd hm (by simp)
    · exact hctrl nm ref hm
    · exact absurd hm (by simp)
  · intro nm ref hmem
    simp only [List.mem_cons, List.mem_append, List.mem_singleton] at hmem
    rcases hmem with hm | hm | hm
    · exact absurd hm (by simp)
    · exact hanim nm ref hm
    · exact absurd hm (by simp)

theorem WriterOk_of_StepOk {f : ColladaExporter → ColladaExporter}
    (hf : StepOk f) : WriterOk (fun ex => some (f ex)) := by
  intro ex
  obtain ⟨d, h⟩ := hf ex
  exact ⟨f ex, d, rfl, h⟩

theorem WriterOk_bind {f g : ColladaExporter → Option ColladaExporter}
    (hf : WriterOk f) (hg : WriterOk g) : WriterOk (fun ex => f ex >>= g) := by
  intro ex
  obtain ⟨ex1, d1, hrun1, hs1, ho1, hr1, hc1, hl1, hctrl1, hanim1⟩ := hf ex
  obtain ⟨ex2, d2, hrun2, hs2, ho2, hr2, hc2, hl2, hctrl2, hanim2⟩ := hg ex1
  refine ⟨ex2, d1 ++ d2, ?_, ?_, ?_, ?_, ?_, ?_, ?_, ?_⟩
  · simp [hrun1, hrun2]
  · rw [hs2, hs1]
  · rw [ho2, ho1, List.append_assoc]
  · rw [hr2, hr1]
  · rw [hc2, hc1]
  · intro k v hv
    exact hl2 k v (hl1 k v hv)
  · intro nm ref hmem
    rcases List.mem_append.mp hmem with hm | hm
    · exact hctrl1 nm ref hm
    · rw [← hr1]
      exact hctrl2 nm ref hm
  · intro nm ref hmem
    rcases List.mem_append.mp hmem with hm | hm
    · exact hanim1 nm ref hm
    · rw [← hr1]
      exact hanim2 nm ref hm

theorem WriterOk_WriteTextures : WriterOk WriteTextures := by
  have hbody : WriterOk (fun ex1 =>
      some (ex1.mScene.mTextures.foldl
        (fun ex2 t => emit ex2 (Markup.textureEntry t)) ex1)) := by
    intro ex
    have hstep : ∀ t : String, StepOk (fun ex2 => emit ex2 (Markup.textureEntry t)) :=
      fun t => StepOk_emit_benign _ (by intro nm ref h; cases h) (by intro nm ref h; cases h)
    obtain ⟨d, h⟩ := StepOk_foldl hstep ex.mScene.mTextures ex
    exact ⟨_, d, rfl, h⟩
  exact WriterOk_withTag "library_images" hbody

theorem WriterOk_indexedLibrary (name : String) (t : AiObjectType)
    (mk : String → Markup) (len : AiScene → Nat)
    (hmk1 : ∀ id nm ref, mk id ≠ Markup.controllerEntry nm ref)
    (hmk2 : ∀ id nm ref, mk id ≠ Markup.animationEntry nm ref) :
    WriterOk (fun ex => withTag name (fun ex1 =>
      some (writeIndexedEntries t mk (List.range (len ex1.mScene)) ex1)) ex) := by
  have hbody : WriterOk (fun ex1 =>
      some (writeIndexedEntries t mk (List.range (len ex1.mScene)) ex1)) := by
    intro ex
    obtain ⟨d, h⟩ :=
      StepOk_writeIndexedEntries t mk (List.range (len ex.mScene)) hmk1 hmk2 ex
    exact ⟨_, d, rfl, h⟩
  exact WriterOk_withTag name hbody

theorem WriterOk_WriteMaterials : WriterOk WriteMaterials := by
  have := WriterOk_indexedLibrary "library_effects" .Material Markup.materialEntry
    (fun s => s.mMaterials.length)
    (by intro id nm ref h; cases h) (by intro id nm ref h; cases h)
  intro ex
  obtain ⟨ex2, d, h⟩ := this ex
  exact ⟨ex2, d, h⟩

theorem WriterOk_WriteCamerasLibrary : WriterOk WriteCamerasLibrary := by
  have := WriterOk_indexedLibrary "library_cameras" .Camera Markup.cameraEntry
    (fun s => s.mCameras.length)
    (by intro id nm ref h; cases h) (by intro id nm ref h; cases h)
  intro ex
  obtain ⟨ex2, d, h⟩ := this ex
  exact ⟨ex2, d, h⟩

theorem WriterOk_WriteLightsLibrary : WriterOk WriteLightsLibrary := by
  have := WriterOk_indexedLibrary "library_lights" .Light Markup.lightEntry
    (fun s => s.mLights.length)
    (by intro id nm ref h; cases h) (by intro id nm ref h; cases h)
  intro ex
  obtain ⟨ex2, d, h⟩ := this ex
  exact ⟨ex2, d, h⟩

theorem WriterOk_WriteGeometryLibrary : WriterOk WriteGeometryLibrary := by
  have := WriterOk_indexedLibrary "library_geometries" .Mesh Markup.geometryEntry
    (fun s => s.mMeshes.length)
    (by intro id nm ref h; cases h) (by intro id nm ref h; cases h)
  intro ex
  obtain ⟨ex2, d, h⟩ := this ex
  exact ⟨ex2, d, h⟩

theorem WriterOk_WriteControllerLibrary : WriterOk WriteControllerLibrary := by
  have hbody : WriterOk (fun ex1 =>
      some (ex1.mScene.mMeshes.enum.foldl
        (fun ex2 p => WriteController ex2 p.1 p.2) ex1)) := by
    intro ex
    obtain ⟨d, h⟩ := StepOk_controllerFold ex.mScene.mMeshes.enum ex
    exact ⟨_, d, rfl, h⟩
  exact WriterOk_withTag "library_controllers" hbody

theorem WriterOk_WriteAnimationsLibrary : WriterOk WriteAnimationsLibrary := by
  have hbody : WriterOk (fun ex1 =>
      some ((List.range ex1.mScene.mAnimations.length).foldl
        (fun ex2 i =>
          let p := GetObjectUniqueId ex2 .Animation i
          emit p.2 (Markup.animationEntry p.1 p.2.mFoundSkeletonRootNodeID)) ex1)) := by
    intro ex
    obtain ⟨d, h⟩ :=
      StepOk_foldl (fun i => StepOk_animationEntry i)
        (List.range ex.mScene.mAnimations.length) ex
    exact ⟨_, d, rfl, h⟩
  exact WriterOk_withTag "library_animations" hbody

theorem WriterOk_writePreSceneLibraries : WriterOk writePreSceneLibraries :=
  WriterOk_bind
    (WriterOk_bind
      (WriterOk_bind
        (WriterOk_bind
          (WriterOk_bind
            (WriterOk_bind WriterOk_WriteTextures WriterOk_WriteMaterials)
            WriterOk_WriteCamerasLibrary)
          WriterOk_WriteLightsLibrary)
        WriterOk_WriteControllerLibrary)
      WriterOk_WriteGeometryLibrary)
    WriterOk_WriteAnimationsLibrary

/-! ### Shape of the node-tree emission -/

/-- A complete node element: its open markup, some interior, its close. -/
def IsNodeBlock (b : List Markup) : Prop :=
  ∃ id nm mid, b = Markup.nodeOpen id nm :: (mid ++ [Markup.nodeClose])

/-- No controller or animation entries occur in the fragment. -/
def NoSkelRefMarkup (d : List Markup) : Prop :=
  ∀ m ∈ d, (∀ s1 s2, m ≠ Markup.controllerEntry s1 s2) ∧
    (∀ s1 s2, m ≠ Markup.animationEntry s1 s2)

theorem PopTag_eq_some {ex ex4 : ColladaExporter} (h : PopTag ex = some ex4) :
    ex4.mOutput = ex.mOutput ∧ ex4.mNodeIdMap = ex.mNodeIdMap ∧
      ex4.mObjectIdMap = ex.mObjectIdMap ∧
      ex4.mFoundSkeletonRootNodeID = ex.mFoundSkeletonRootNodeID ∧
      ex4.mScene = ex.mScene := by
  unfold PopTag at h
  cases hp : popTagStr ex.startstr with
  | none =>
    rw [hp] at h
    exact Option.noConfusion h
  | some s2 =>
    rw [hp] at h
    simp only [Option.map_some', Option.some.injEq] at h
    rw [← h]
    exact ⟨rfl, rfl, rfl, rfl, rfl⟩

theorem WriteInstances_shape (ms : List Nat) :
    ∀ ex, ∃ inst,
      (WriteInstances ex ms).startstr = ex.startstr ∧
      (WriteInstances ex ms).mOutput = ex.mOutput ++ inst ∧
      (WriteInstances ex ms).mFoundSkeletonRootNodeID = ex.mFoundSkeletonRootNodeID ∧
      (WriteInstances ex ms).mScene = ex.mScene ∧
      (∀ k v, lookupIdKey ex k = some v → lookupIdKey (WriteInstances ex ms) k = some v) ∧
      (∀ m ∈ inst, ∃ r, m = Markup.instanceRef r) := by
  induction ms with
  | nil =>
    intro ex
    exact ⟨[], by simp [WriteInstances], by simp [WriteInstances],
      by simp [WriteInstances], by simp [WriteInstances],
      fun k v hv => by simpa [WriteInstances] using hv, by simp⟩
  | cons i rest ih =>
    intro ex
    have hstep : WriteInstances ex (i :: rest) =
        WriteInstances (emit (GetObjectUniqueId ex .Mesh i).2
          (Markup.instanceRef (GetObjectUniqueId ex .Mesh i).1)) rest := by
      simp [WriteInstances, List.foldl_cons]
    obtain ⟨hs0, ho0, hr0, hc0⟩ := GetObjectUniqueId_misc ex .Mesh i
    set ex1 := emit (GetObjectUniqueId ex .Mesh i).2
      (Markup.instanceRef (GetObjectUniqueId ex .Mesh i).1) with hex1
    obtain ⟨inst, hs, ho, hr, hc, hl, hir⟩ := ih ex1
    refine ⟨Markup.instanceRef (GetObjectUniqueId ex .Mesh i).1 :: inst,
      ?_, ?_, ?_, ?_, ?_, ?_⟩
    · rw [hstep, hs, hex1]
      simpa [emit] using hs0
    · rw [hstep, ho, hex1]
      simp [emit, ho0]
    · rw [hstep, hr, hex1]
      simpa [emit] using hr0
    · rw [hstep, hc, hex1]
      simpa [emit] using hc0
    · intro k v hv
      rw [hstep]
      apply hl
      rw [hex1, lookupIdKey_emit]
      exact GetObjectUniqueId_lookup_preserved ex .Mesh i hv
    · intro m hm
      rcases List.mem_cons.mp hm with hm | hm
      · exact ⟨_, hm⟩
      · exact hir m hm

mutual

theorem WriteNode_shape (pNode : AiNode) :
    ∀ ex, ∃ (ex2 : ColladaExporter) (inst : List Markup)
        (blocks : List (List Markup)),
      WriteNode ex pNode = some ex2 ∧
      ex2.startstr = ex.startstr ∧
      ex2.mOutput = ex.mOutput ++
        (Markup.nodeOpen (GetNodeUniqueId ex pNode).1 pNode.mName ::
          ((inst ++ blocks.flatten) ++ [Markup.nodeClose])) ∧
      blocks.length = pNode.mChildren.length ∧
      (∀ b ∈ blocks, IsNodeBlock b) ∧
      (∀ m ∈ inst, ∃ r, m = Markup.instanceRef r) ∧
      ex2.mFoundSkeletonRootNodeID = ex.mFoundSkeletonRootNodeID ∧
      ex2.mScene = ex.mScene ∧
      (∀ k v, lookupIdKey ex k = some v → lookupIdKey ex2 k = some v) ∧
      NoSkelRefMarkup (Markup.nodeOpen (GetNodeUniqueId ex pNode).1 pNode.mName ::
        ((inst ++ blocks.flatten) ++ [Markup.nodeClose])) := by
  match pNode with
  | .mk a nm sk ms cs =>
    intro ex
    have hmisc := registerNodeKey_misc ex a (nodeIdCandidate nm)
    set p := GetNodeUniqueId ex (.mk a nm sk ms cs) with hp
    have hsP : p.2.startstr = ex.startstr := hmisc.1
    have hoP : p.2.mOutput = ex.mOutput := hmisc.2.1
    have hrP : p.2.mFoundSkeletonRootNodeID = ex.mFoundSkeletonRootNodeID := hmisc.2.2.1
    have hcP : p.2.mScene = ex.mScene := hmisc.2.2.2
    set exB := WriteInstances
      (PushTag (emit p.2 (Markup.nodeOpen p.1 nm))) ms with hexB
    obtain ⟨inst, hsI, hoI, hrI, hcI, hlI, hirI⟩ :=
      WriteInstances_shape ms (PushTag (emit p.2 (Markup.nodeOpen p.1 nm)))
    obtain ⟨ex3, blocks, hrun3, hs3, ho3, hlen3, hblk3, hr3, hc3, hl3, hns3⟩ :=
      WriteNodeList_shape cs exB
    have hstart3 : ex3.startstr = pushTagStr ex.startstr := by
      rw [hs3, hexB, hsI]
      show pushTagStr (emit p.2 (Markup.nodeOpen p.1 nm)).startstr = _
      rw [show (emit p.2 (Markup.nodeOpen p.1 nm)).startstr = p.2.startstr from rfl, hsP]
    have hpop : PopTag ex3 = some { ex3 with startstr := ex.startstr } := by
      unfold PopTag
      rw [hstart3, popTagStr_pushTagStr]
      rfl
    refine ⟨emit { ex3 with startstr := ex.startstr } Markup.nodeClose,
      inst, blocks, ?_, ?_, ?_, ?_, hblk3, hirI, ?_, ?_, ?_, ?_⟩
    · show (WriteNodeList exB cs).bind _ = _
      rw [hrun3, Option.some_bind, hpop]
      rfl
    · simp [emit]
    · have hoB : exB.mOutput =
          ex.mOutput ++ [Markup.nodeOpen p.1 nm] ++ inst := by
        rw [hexB, hoI]
        show (emit p.2 (Markup.nodeOpen p.1 nm)).mOutput ++ inst = _
        rw [show (emit p.2 (Markup.nodeOpen p.1 nm)).mOutput =
          p.2.mOutput ++ [Markup.nodeOpen p.1 nm] from rfl, hoP]
      simp only [emit]
      rw [ho3, hoB]
      simp [AiNode.mName, List.append_assoc]
    · simpa [AiNode.mChildren] using hlen3
    · show (emit { ex3 with startstr := ex.startstr } Markup.nodeClose).mFoundSkeletonRootNodeID = _
      rw [show (emit { ex3 with startstr := ex.startstr } Markup.nodeClose).mFoundSkeletonRootNodeID =
        ex3.mFoundSkeletonRootNodeID from rfl, hr3, hexB, hrI]
      show (emit p.2 (Markup.nodeOpen p.1 nm)).mFoundSkeletonRootNodeID = _
      rw [show (emit p.2 (Markup.nodeOpen p.1 nm)).mFoundSkeletonRootNodeID =
        p.2.mFoundSkeletonRootNodeID from rfl, hrP]
    · show (emit { ex3 with startstr := ex.startstr } Markup.nodeClose).mScene = _
      rw [show (emit { ex3 with startstr := ex.startstr } Markup.nodeClose).mScene =
        ex3.mScene from rfl, hc3, hexB, hcI]
      show (emit p.2 (Markup.nodeOpen p.1 nm)).mScene = _
      rw [show (emit p.2 (Markup.nodeOpen p.1 nm)).mScene = p.2.mScene from rfl, hcP]
    · intro k v hv
      have hv1 : lookupIdKey p.2 k = some v :=
        registerNodeKey_lookup_preserved ex a (nodeIdCandidate nm) hv
      have hv2 : lookupIdKey (PushTag (emit p.2 (Markup.nodeOpen p.1 nm))) k = some v := by
        cases k <;> exact hv1
      have hv3 : lookupIdKey exB k = some v := by
        rw [hexB]
        exact hlI k v hv2
      have hv4 := hl3 k v hv3
      cases k <;> exact hv4
    · intro m hm
      rcases List.mem_cons.mp hm with hm | hm
      · subst hm
        exact ⟨fun s1 s2 h => Markup.noConfusion h, fun s1 s2 h => Markup.noConfusion h⟩
      rcases List.mem_append.mp hm with hm | hm
      · rcases List.mem_append.mp hm with hm | hm
        · obtain ⟨r, rfl⟩ := hirI m hm
          exact ⟨fun s1 s2 h => Markup.noConfusion h, fun s1 s2 h => Markup.noConfusion h⟩
        · exact hns3 m hm
      · rw [List.mem_singleton] at hm
        subst hm
        exact ⟨fun s1 s2 h => Markup.noConfusion h, fun s1 s2 h => Markup.noConfusion h⟩

theorem WriteNodeList_shape (cs : List AiNode) :
    ∀ ex, ∃ (ex2 : ColladaExporter) (blocks : List (List Markup)),
      WriteNodeList ex cs = some ex2 ∧
      ex2.startstr = ex.startstr ∧
      ex2.mOutput = ex.mOutput ++ blocks.flatten ∧
      blocks.length = cs.length ∧
      (∀ b ∈ blocks, IsNodeBlock b) ∧
      ex2.mFoundSkeletonRootNodeID = ex.mFoundSkeletonRootNodeID ∧
      ex2.mScene = ex.mScene ∧
      (∀ k v, lookupIdKey ex k = some v → lookupIdKey ex2 k = some v) ∧
      NoSkelRefMarkup blocks.flatten := by
  match cs with
  | [] =>
    intro ex
    exact ⟨ex, [], rfl, rfl, by simp, rfl, by simp, rfl, rfl, fun k v hv => hv,
      by intro m hm; simp at hm⟩
  | c :: rest =>
    intro ex
    obtain ⟨exc, inst, blocksc, hrunc, hsc, hoc, hlenc, hblkc, hirc, hrc, hcc, hlc, hnsc⟩ :=
      WriteNode_shape c ex
    obtain ⟨ex2, blocks, hrun2, hs2, ho2, hlen2, hblk2, hr2, hc2, hl2, hns2⟩ :=
      WriteNodeList_shape rest exc
    refine ⟨ex2,
      (Markup.nodeOpen (GetNodeUniqueId ex c).1 c.mName ::
        ((inst ++ blocksc.flatten) ++ [Markup.nodeClose])) :: blocks,
      ?_, ?_, ?_, ?_, ?_, ?_, ?_, ?_, ?_⟩
    · show (WriteNode ex c).bind _ = _
      rw [hrunc, Option.some_bind]
      exact hrun2
    · rw [hs2, hsc]
    · rw [ho2, hoc]
      simp [List.append_assoc]
    · simpa using hlen2
    · intro b hb
      rcases List.mem_cons.mp hb with hb | hb
      · exact ⟨(GetNodeUniqueId ex c).1, c.mName, inst ++ blocksc.flatten, hb⟩
      · exact hblk2 b hb
    · rw [hr2, hrc]
    · rw [hc2, hcc]
    · intro k v hv
      exact hl2 k v (hlc k v hv)
    · intro m hm
      simp only [List.flatten_cons, List.mem_append] at hm
      rcases hm with hm | hm
      · exact hnsc m (by simpa using hm)
      · exact hns2 m hm

end

mutual

/-- All nodes of a subtree, in traversal order. -/
def nodesOf : AiNode → List AiNode
  | .mk a nm sk ms cs => .mk a nm sk ms cs :: nodesOfList cs

/-- All nodes of a forest, in traversal order. -/
def nodesOfList : List AiNode → List AiNode
  | [] => []
  | c :: rest => nodesOf c ++ nodesOfList rest

end

mutual

theorem findSkeletonRoot_mem (n : AiNode) :
    ∀ r, findSkeletonRoot n = some r → r ∈ nodesOf n := by
  match n with
  | .mk a nm sk ms cs =>
    intro r hr
    unfold findSkeletonRoot at hr
    by_cases hsk : sk = true
    · rw [if_pos hsk] at hr
      cases hr
      simp [nodesOf]
    · rw [if_neg hsk] at hr
      have := findSkeletonRootList_mem cs r hr
      simp [nodesOf]
      right
      exact this

theorem findSkeletonRootList_mem (cs : List AiNode) :
    ∀ r, findSkeletonRootList cs = some r → r ∈ nodesOfList cs := by
  match cs with
  | [] =>
    intro r hr
    exact Option.noConfusion hr
  | c :: rest =>
    intro r hr
    unfold findSkeletonRootList at hr
    cases hc : findSkeletonRoot c with
    | some r2 =>
      rw [hc] at hr
      obtain rfl : r2 = r := Option.some.inj hr
      exact List.mem_append.mpr (Or.inl (findSkeletonRoot_mem c _ hc))
    | none =>
      rw [hc] at hr
      exact List.mem_append.mpr (Or.inr (findSkeletonRootList_mem rest r hr))

end

theorem registerNodeKey_hit (ex : ColladaExporter) (a : Nat) (cand : String)
    {v : String} (h : ex.mNodeIdMap.lookup a = some v) :
    registerNodeKey ex a cand = (v, ex) := by
  unfold registerNodeKey
  rw [h]

theorem mem_output_mono {exA exB : ColladaExporter} {m : Markup} {d : List Markup}
    (h : exB.mOutput = exA.mOutput ++ d) (hm : m ∈ exA.mOutput) : m ∈ exB.mOutput := by
  rw [h]
  exact List.mem_append.mpr (Or.inl hm)

mutual

theorem WriteNode_emits (pNode : AiNode) :
    ∀ ex ex2 (target : AiNode) (v : String),
      WriteNode ex pNode = some ex2 →
      target ∈ nodesOf pNode →
      ex.mNodeIdMap.lookup target.addr = some v →
      Markup.nodeOpen v target.mName ∈ ex2.mOutput := by
  match pNode with
  | .mk a nm sk ms cs =>
    intro ex ex2 target v hrun htarget hcache
    have htarget2 : target = AiNode.mk a nm sk ms cs ∨ target ∈ nodesOfList cs := by
      simpa [nodesOf] using htarget
    rcases htarget2 with rfl | htl
    · obtain ⟨ex2s, inst, blocks, hruns, hss, hos, hlens, hblks, hirs, hrs, hcs, hls, hnss⟩ :=
        WriteNode_shape (.mk a nm sk ms cs) ex
      have hex2 : ex2 = ex2s := by
        rw [hrun] at hruns
        exact Option.some.inj hruns
      have hid : (GetNodeUniqueId ex (AiNode.mk a nm sk ms cs)).1 = v := by
        have hhit := registerNodeKey_hit ex a (nodeIdCandidate nm) (v := v) (by
          simpa [AiNode.addr] using hcache)
        show (registerNodeKey ex (AiNode.mk a nm sk ms cs).addr
          (nodeIdCandidate (AiNode.mk a nm sk ms cs).mName)).1 = v
        simp only [AiNode.addr, AiNode.mName]
        rw [hhit]
      rw [hex2, hos]
      apply List.mem_append.mpr
      right
      rw [hid]
      simp [AiNode.mName]
    · -- the target lies in a child subtree; its cached id survives to that point
      set p := GetNodeUniqueId ex (.mk a nm sk ms cs) with hp
      set exB := WriteInstances (PushTag (emit p.2 (Markup.nodeOpen p.1 nm))) ms with hexB
      obtain ⟨inst2, hsI, hoI, hrI, hcI, hlI, hirI⟩ :=
        WriteInstances_shape ms (PushTag (emit p.2 (Markup.nodeOpen p.1 nm)))
      have hcacheB : exB.mNodeIdMap.lookup target.addr = some v := by
        have hv1 : lookupIdKey p.2 (.nodeAddr target.addr) = some v :=
          registerNodeKey_lookup_preserved ex a (nodeIdCandidate nm) (k := .nodeAddr target.addr)
            (by simpa [lookupIdKey] using hcache)
        have hv2 : lookupIdKey (PushTag (emit p.2 (Markup.nodeOpen p.1 nm)))
            (.nodeAddr target.addr) = some v := hv1
        have hv3 := hlI (.nodeAddr target.addr) v hv2
        rw [hexB]
        exact hv3
      have hrun2 : (WriteNodeList exB cs).bind
          (fun ex3 => (PopTag ex3).map fun ex4 => emit ex4 Markup.nodeClose) = some ex2 := hrun
      obtain ⟨ex3, blocks3, hrun3, hs3, ho3, hlen3, hblk3, hr3, hc3, hl3, hns3⟩ :=
        WriteNodeList_shape cs exB
      have hmem3 : Markup.nodeOpen v target.mName ∈ ex3.mOutput :=
        WriteNodeList_emits cs exB ex3 target v hrun3 htl hcacheB
      rw [hrun3, Option.some_bind] at hrun2
      obtain ⟨ex4, hpop4, hex4⟩ := Option.map_eq_some'.mp hrun2
      obtain ⟨ho4, _, _, _, _⟩ := PopTag_eq_some hpop4
      rw [← hex4]
      show Markup.nodeOpen v target.mName ∈ ex4.mOutput ++ [Markup.nodeClose]
      apply List.mem_append.mpr
      left
      rw [ho4]
      exact hmem3

theorem WriteNodeList_emits (cs : List AiNode) :
    ∀ ex ex2 (target : AiNode) (v : String),
      WriteNodeList ex cs = some ex2 →
      target ∈ nodesOfList cs →
      ex.mNodeIdMap.lookup target.addr = some v →
      Markup.nodeOpen v target.mName ∈ ex2.mOutput := by
  match cs with
  | [] =>
    intro ex ex2 target v hrun htarget hcache
    simp [nodesOfList] at htarget
  | c :: rest =>
    intro ex ex2 target v hrun htarget hcache
    obtain ⟨exc, inst, blocksc, hrunc, hsc, hoc, hlenc, hblkc, hirc, hrc, hcc, hlc, hnsc⟩ :=
      WriteNode_shape c ex
    have hrun2 : WriteNodeList exc rest = some ex2 := by
      have : (WriteNode ex c).bind (fun ex1 => WriteNodeList ex1 rest) = some ex2 := hrun
      rw [hrunc, Option.some_bind] at this
      exact this
    have htarget2 : target ∈ nodesOf c ∨ target ∈ nodesOfList rest := by
      simpa [nodesOfList] using htarget
    rcases htarget2 with htc | htr
    · have hmemc : Markup.nodeOpen v target.mName ∈ exc.mOutput :=
        WriteNode_emits c ex exc target v hrunc htc hcache
      obtain ⟨ex2s, blocks2, hrun2s, hs2, ho2, hlen2, hblk2, hr2, hc2, hl2, hns2⟩ :=
        WriteNodeList_shape rest exc
      have hex2 : ex2 = ex2s := by
        rw [hrun2s] at hrun2
        exact (Option.some.inj hrun2).symm
      rw [hex2]
      exact mem_output_mono ho2 hmemc
    · have hcachec : exc.mNodeIdMap.lookup target.addr = some v := by
        have := hlc (.nodeAddr target.addr) v (by simpa [lookupIdKey] using hcache)
        exact this
      exact WriteNodeList_emits rest exc ex2 target v hrun2 htr hcachec

end

theorem WriteSceneLibrary_full (ex : ColladaExporter) :
    ∃ (ex2 : ColladaExporter) (d : List Markup), WriteSceneLibrary ex = some ex2 ∧
      ex2.startstr = ex.startstr ∧
      ex2.mOutput = ex.mOutput ++ d ∧
      ex2.mFoundSkeletonRootNodeID = ex.mFoundSkeletonRootNodeID ∧
      ex2.mScene = ex.mScene ∧
      (∀ k v, lookupIdKey ex k = some v → lookupIdKey ex2 k = some v) ∧
      NoSkelRefMarkup d ∧
      (∀ (target root : AiNode) (v : String), ex.mScene.mRootNode = some root →
        target ∈ nodesOf root → ex.mNodeIdMap.lookup target.addr = some v →
        Markup.nodeOpen v target.mName ∈ ex2.mOutput) := by
  set ex1 := PushTag (emit ex (Markup.libraryOpen "library_visual_scenes")) with hex1
  have hsc1 : ex1.mScene = ex.mScene := rfl
  have hst1 : ex1.startstr = pushTagStr ex.startstr := rfl
  have hout1 : ex1.mOutput = ex.mOutput ++ [Markup.libraryOpen "library_visual_scenes"] := rfl
  cases hroot : ex.mScene.mRootNode with
  | none =>
    have hbody : WriteSceneLibrary ex = (PopTag ex1).map
        (fun ex3 => emit ex3 (Markup.libraryClose "library_visual_scenes")) := by
      show ((match ex1.mScene.mRootNode with
        | none => some ex1
        | some root => WriteNode ex1 root) :
          Option ColladaExporter).bind _ = _
      rw [show ex1.mScene.mRootNode = none from hroot]
      rfl
    have hpop : PopTag ex1 = some { ex1 with startstr := ex.startstr } := by
      unfold PopTag
      rw [hst1, popTagStr_pushTagStr]
      rfl
    refine ⟨emit { ex1 with startstr := ex.startstr }
        (Markup.libraryClose "library_visual_scenes"),
      [Markup.libraryOpen "library_visual_scenes",
        Markup.libraryClose "library_visual_scenes"], ?_, ?_, ?_, ?_, ?_, ?_, ?_, ?_⟩
    · rw [hbody, hpop]
      rfl
    · simp [emit]
    · simp [emit, hout1]
    · rfl
    · rfl
    · intro k v hv
      cases k <;> exact hv
    · intro m hm
      have hm2 : m = Markup.libraryOpen "library_visual_scenes" ∨
          m = Markup.libraryClose "library_visual_scenes" := by
        simpa using hm
      rcases hm2 with rfl | rfl <;>
        exact ⟨fun s1 s2 h => Markup.noConfusion h, fun s1 s2 h => Markup.noConfusion h⟩
    · intro target root v hr htarget hcache
      exact Option.noConfusion hr
  | some root =>
    obtain ⟨exN, inst, blocks, hrunN, hsN, hoN, hlenN, hblkN, hirN, hrN, hcN, hlN, hnsN⟩ :=
      WriteNode_shape root ex1
    have hbody : WriteSceneLibrary ex = (WriteNode ex1 root).bind (fun ex2 =>
        (PopTag ex2).map
          (fun ex3 => emit ex3 (Markup.libraryClose "library_visual_scenes"))) := by
      show ((match ex1.mScene.mRootNode with
        | none => some ex1
        | some root => WriteNode ex1 root) :
          Option ColladaExporter).bind _ = _
      rw [show ex1.mScene.mRootNode = some root from hroot]
    have hpop : PopTag exN = some { exN with startstr := ex.startstr } := by
      unfold PopTag
      rw [hsN, hst1, popTagStr_pushTagStr]
      rfl
    set dN := Markup.nodeOpen (GetNodeUniqueId ex1 root).1 root.mName ::
      ((inst ++ blocks.flatten) ++ [Markup.nodeClose]) with hdN
    refine ⟨emit { exN with startstr := ex.startstr }
        (Markup.libraryClose "library_visual_scenes"),
      (Markup.libraryOpen "library_visual_scenes" :: dN) ++
        [Markup.libraryClose "library_visual_scenes"], ?_, ?_, ?_, ?_, ?_, ?_, ?_, ?_⟩
    · rw [hbody, hrunN, Option.some_bind, hpop]
      rfl
    · simp [emit]
    · show exN.mOutput ++ [Markup.libraryClose "library_visual_scenes"] = _
      rw [hoN, hout1]
      simp [List.append_assoc]
    · show exN.mFoundSkeletonRootNodeID = _
      rw [hrN]
      rfl
    · show exN.mScene = _
      rw [hcN]
      exact hsc1
    · intro k v hv
      have hv1 : lookupIdKey ex1 k = some v := by
        cases k <;> exact hv
      have hv2 := hlN k v hv1
      cases k <;> exact hv2
    · intro m hm
      rcases List.mem_append.mp hm with hm | hm
      · rcases List.mem_cons.mp hm with rfl | hm
        · exact ⟨fun s1 s2 h => Markup.noConfusion h, fun s1 s2 h => Markup.noConfusion h⟩
        · exact hnsN m hm
      · rw [List.mem_singleton] at hm
        subst hm
        exact ⟨fun s1 s2 h => Markup.noConfusion h, fun s1 s2 h => Markup.noConfusion h⟩
    · intro target root2 v hr htarget hcache
      obtain rfl : root = root2 := Option.some.inj hr
      have hcache1 : ex1.mNodeIdMap.lookup target.addr = some v := hcache
      have hmemN : Markup.nodeOpen v target.mName ∈ exN.mOutput :=
        WriteNode_emits root ex1 exN target v hrunN htarget hcache1
      show Markup.nodeOpen v target.mName ∈
        exN.mOutput ++ [Markup.libraryClose "library_visual_scenes"]
      exact List.mem_append.mpr (Or.inl hmemN)

theorem WriterOk_WriteSceneLibrary : WriterOk WriteSceneLibrary := by
  intro ex
  obtain ⟨ex2, d, hrun, hs, ho, hr, hc, hl, hns, hemits⟩ := WriteSceneLibrary_full ex
  refine ⟨ex2, d, hrun, hs, ho, hr, hc, hl, ?_, ?_⟩
  · intro nm ref hm
    exact absurd rfl ((hns _ hm).1 nm ref)
  · intro nm ref hm
    exact absurd rfl ((hns _ hm).2 nm ref)

theorem FindSkeletonRootId_misc (ex : ColladaExporter) :
    (FindSkeletonRootId ex).startstr = ex.startstr ∧
      (FindSkeletonRootId ex).mOutput = ex.mOutput ∧
      (FindSkeletonRootId ex).mScene = ex.mScene := by
  unfold FindSkeletonRootId
  cases h : sceneSkeletonRoot ex.mScene with
  | none => exact ⟨rfl, rfl, rfl⟩
  | some r =>
    have hmisc := registerNodeKey_misc ex r.addr (nodeIdCandidate r.mName)
    exact ⟨hmisc.1, hmisc.2.1, hmisc.2.2.2⟩

theorem FindSkeletonRootId_none (ex : ColladaExporter)
    (h : sceneSkeletonRoot ex.mScene = none) : FindSkeletonRootId ex = ex := by
  unfold FindSkeletonRootId
  rw [h]

theorem FindSkeletonRootId_found (ex : ColladaExporter) (r : AiNode)
    (h : sceneSkeletonRoot ex.mScene = some r) :
    (FindSkeletonRootId ex).mFoundSkeletonRootNodeID = (GetNodeUniqueId ex r).1 ∧
      (FindSkeletonRootId ex).mNodeIdMap.lookup r.addr =
        some (GetNodeUniqueId ex r).1 := by
  unfold FindSkeletonRootId
  rw [h]
  constructor
  · rfl
  · exact registerNodeKey_lookup_self ex r.addr (nodeIdCandidate r.mName)

theorem WriteFile_full (ex : ColladaExporter) :
    ∃ (ex2 : ColladaExporter) (d : List Markup), WriteFile ex = some ex2 ∧
      ex2.startstr = ex.startstr ∧
      ex2.mOutput = (FindSkeletonRootId ex).mOutput ++ d ∧
      ex2.mFoundSkeletonRootNodeID = (FindSkeletonRootId ex).mFoundSkeletonRootNodeID ∧
      (∀ k v, lookupIdKey (FindSkeletonRootId ex) k = some v →
        lookupIdKey ex2 k = some v) ∧
      (∀ nm ref, Markup.controllerEntry nm ref ∈ d →
        ref = (FindSkeletonRootId ex).mFoundSkeletonRootNodeID) ∧
      (∀ nm ref, Markup.animationEntry nm ref ∈ d →
        ref = (FindSkeletonRootId ex).mFoundSkeletonRootNodeID) ∧
      (∀ (target root : AiNode) (v : String), ex.mScene.mRootNode = some root →
        target ∈ nodesOf root →
        (FindSkeletonRootId ex).mNodeIdMap.lookup target.addr = some v →
        Markup.nodeOpen v target.mName ∈ ex2.mOutput) ∧
      Markup.headerEntry ∈ ex2.mOutput := by
  obtain ⟨hstP, hoP, hscP⟩ := FindSkeletonRootId_misc ex
  set exP := FindSkeletonRootId ex with hexP
  set ex1 := emit (PushTag (emit exP (Markup.libraryOpen "COLLADA"))) Markup.headerEntry
    with hex1
  have hst1 : ex1.startstr = pushTagStr exP.startstr := rfl
  have hout1 : ex1.mOutput = exP.mOutput ++
    [Markup.libraryOpen "COLLADA", Markup.headerEntry] := by
    rw [hex1]
    show (PushTag (emit exP (Markup.libraryOpen "COLLADA"))).mOutput ++ [Markup.headerEntry] = _
    show (exP.mOutput ++ [Markup.libraryOpen "COLLADA"]) ++ [Markup.headerEntry] = _
    simp
  have hfld1 : ex1.mFoundSkeletonRootNodeID = exP.mFoundSkeletonRootNodeID := rfl
  have hsc1 : ex1.mScene = exP.mScene := rfl
  obtain ⟨ex2p, d1, hrun1, hs1, ho1, hr1, hc1, hl1, hctrl1, hanim1⟩ :=
    WriterOk_writePreSceneLibraries ex1
  obtain ⟨ex3, d2, hrun2, hs2, ho2, hr2, hc2, hl2, hns2, hemits2⟩ :=
    WriteSceneLibrary_full ex2p
  have hst3 : ex3.startstr = pushTagStr exP.startstr := by
    rw [hs2, hs1, hst1]
  have hpop : PopTag ex3 = some { ex3 with startstr := exP.startstr } := by
    unfold PopTag
    rw [hst3, popTagStr_pushTagStr]
    rfl
  refine ⟨emit { ex3 with startstr := exP.startstr } (Markup.libraryClose "COLLADA"),
    (Markup.libraryOpen "COLLADA" :: Markup.headerEntry :: (d1 ++ d2)) ++
      [Markup.libraryClose "COLLADA"], ?_, ?_, ?_, ?_, ?_, ?_, ?_, ?_, ?_⟩
  · show (writePreSceneLibraries ex1).bind _ = _
    rw [hrun1, Option.some_bind, hrun2, Option.some_bind, hpop]
    rfl
  · show exP.startstr = ex.startstr
    exact hstP
  · show ex3.mOutput ++ [Markup.libraryClose "COLLADA"] = _
    rw [ho2, ho1, hout1]
    simp [List.append_assoc]
  · show ex3.mFoundSkeletonRootNodeID = _
    rw [hr2, hr1, hfld1]
  · intro k v hv
    have hv1 : lookupIdKey ex1 k = some v := by
      cases k <;> exact hv
    have hv3 := hl2 k v (hl1 k v hv1)
    cases k <;> exact hv3
  · intro nm ref hm
    simp only [List.mem_append, List.mem_cons, List.mem_singleton] at hm
    rcases hm with (hm | hm | hm) | hm
    · exact absurd hm (by simp)
    · exact absurd hm (by simp)
    · rcases hm with hm | hm
      · have := hctrl1 nm ref hm
        rw [this, hfld1]
      · exact absurd rfl ((hns2 _ hm).1 nm ref)
    · exact absurd hm (by simp)
  · intro nm ref hm
    simp only [List.mem_append, List.mem_cons, List.mem_singleton] at hm
    rcases hm with (hm | hm | hm) | hm
    · exact absurd hm (by simp)
    · exact absurd hm (by simp)
    · rcases hm with hm | hm
      · have := hanim1 nm ref hm
        rw [this, hfld1]
      · exact absurd rfl ((hns2 _ hm).2 nm ref)
    · exact absurd hm (by simp)
  · intro target root v hroot htarget hcache
    have hroot2 : ex2p.mScene.mRootNode = some root := by
      rw [hc1, hsc1, hscP]
      exact hroot
    have hcache2 : ex2p.mNodeIdMap.lookup target.addr = some v := by
      have hv1 : lookupIdKey ex1 (.nodeAddr target.addr) = some v := hcache
      exact hl1 (.nodeAddr target.addr) v hv1
    have hmem3 : Markup.nodeOpen v target.mName ∈ ex3.mOutput :=
      hemits2 target root v hroot2 htarget hcache2
    show Markup.nodeOpen v target.mName ∈ ex3.mOutput ++ [Markup.libraryClose "COLLADA"]
    exact List.mem_append.mpr (Or.inl hmem3)
  · show Markup.headerEntry ∈ ex3.mOutput ++ [Markup.libraryClose "COLLADA"]
    apply List.mem_append.mpr
    left
    rw [ho2]
    apply List.mem_append.mpr
    left
    rw [ho1]
    apply List.mem_append.mpr
    left
    rw [hout1]
    simp

/-! ### Idempotence of the registry operations -/

theorem registerNodeKey_idem (ex : ColladaExporter) (a : Nat) (cand : String) :
    registerNodeKey (registerNodeKey ex a cand).2 a cand = registerNodeKey ex a cand := by
  cases h : ex.mNodeIdMap.lookup a with
  | some id =>
    rw [registerNodeKey_hit ex a cand h]
    exact registerNodeKey_hit ex a cand h
  | none =>
    unfold registerNodeKey
    rw [h]
    simp [List.lookup_cons]

theorem GetObjectUniqueId_idem (ex : ColladaExporter) (t : AiObjectType) (i : Nat) :
    GetObjectUniqueId (GetObjectUniqueId ex t i).2 t i = GetObjectUniqueId ex t i := by
  cases h : (ex.mObjectIdMap t).lookup i with
  | some id =>
    have h1 : GetObjectUniqueId ex t i = (id, ex) := by
      unfold GetObjectUniqueId
      rw [h]
    rw [h1]
    exact h1
  | none =>
    unfold GetObjectUniqueId
    rw [h]
    simp [List.lookup_cons]

/-! ### The claims -/

/-- C2: Identifier generation is idempotent: for every node address, bone
address, or (kind, index) pair, calling the corresponding identifier
operation (`GetNodeUniqueId`, `GetBoneUniqueId`, `GetObjectUniqueId`) twice
within one export pass returns the same string both times, with no side
effect beyond the first-call cache insertion (the second call returns the
very same state). -/
theorem C2_id_generation_idempotent :
    (∀ (ex : ColladaExporter) (n : AiNode),
      GetNodeUniqueId (GetNodeUniqueId ex n).2 n = GetNodeUniqueId ex n) ∧
    (∀ (ex : ColladaExporter) (b : AiBone),
      GetBoneUniqueId (GetBoneUniqueId ex b).2 b = GetBoneUniqueId ex b) ∧
    (∀ (ex : ColladaExporter) (t : AiObjectType) (i : Nat),
      GetObjectUniqueId (GetObjectUniqueId ex t i).2 t i = GetObjectUniqueId ex t i) :=
  ⟨fun ex n => registerNodeKey_idem ex n.addr (nodeIdCandidate n.mName),
   fun ex b => registerNodeKey_idem ex b.addr (boneIdCandidate b.mName),
   fun ex t i => GetObjectUniqueId_idem ex t i⟩

/-- C4: For every `Surface` passed to the color-or-texture rendering
operations: if the Surface has a bound texture, only the texture/sampler
markup is emitted and the flat-color markup is never emitted (even when a
color is also set); if the Surface has `exist = false`, no markup at all is
emitted for that channel. -/
theorem C4_surface_texture_precedence (sf : Surface) (tn iid mid : String) :
    (sf.exist = false →
      WriteTextureColorEntry sf tn iid = [] ∧
      WriteTextureParamEntry sf tn mid = [] ∧
      WriteImageEntry sf iid = []) ∧
    (sf.exist = true → sf.texture ≠ "" →
      ¬ containsColorEntry (WriteTextureColorEntry sf tn iid) ∧
      containsTextureRef (WriteTextureColorEntry sf tn iid) ∧
      WriteTextureParamEntry sf tn mid = [Markup.textureParam mid]) := by
  constructor
  · intro hfalse
    refine ⟨?_, ?_, ?_⟩
    · simp [WriteTextureColorEntry, hfalse]
    · simp [WriteTextureParamEntry, hfalse]
    · simp [WriteImageEntry, hfalse]
  · intro htrue htex
    have hcol : WriteTextureColorEntry sf tn iid =
        [Markup.channelOpen tn, Markup.textureRef iid sf.channel,
          Markup.channelClose tn] := by
      unfold WriteTextureColorEntry
      rw [if_neg (by simp [htrue]), if_neg htex]
    refine ⟨?_, ?_, ?_⟩
    · intro hcontra
      obtain ⟨tn2, c, hm⟩ := hcontra
      rw [hcol] at hm
      simp at hm
    · exact ⟨iid, sf.channel, by rw [hcol]; simp⟩
    · simp [WriteTextureParamEntry, htrue, htex]

theorem C4_surface_texture_precedence_witness :
    (¬ containsColorEntry
        (WriteTextureColorEntry ⟨true, ⟨1, 0, 0, 1⟩, "tex.png", 0⟩ "diffuse" "img0") ∧
      containsTextureRef
        (WriteTextureColorEntry ⟨true, ⟨1, 0, 0, 1⟩, "tex.png", 0⟩ "diffuse" "img0") ∧
      WriteTextureParamEntry ⟨true, ⟨1, 0, 0, 1⟩, "tex.png", 0⟩ "diffuse" "mat0" =
        [Markup.textureParam "mat0"]) ∧
    WriteTextureColorEntry ⟨false, ⟨1, 0, 0, 1⟩, "tex.png", 0⟩ "diffuse" "img0" = [] :=
  ⟨(C4_surface_texture_precedence ⟨true, ⟨1, 0, 0, 1⟩, "tex.png", 0⟩
      "diffuse" "img0" "mat0").2 rfl (by decide),
   ((C4_surface_texture_precedence ⟨false, ⟨1, 0, 0, 1⟩, "tex.png", 0⟩
      "diffuse" "img0" "mat0").1 rfl).1⟩

/-- C5: `WriteFloatArray` with kind `Mat4x4` and a 16-element data buffer
emits metadata declaring exactly one logical matrix element, and with a
32-element buffer exactly two; in general the emitted metadata declares
`count / stride` logical elements, where the stride is fixed by the kind
(Vector 3, TexCoord2 2, TexCoord3 3, Color 4, Mat4x4 16, Weight 1, Time 1)
and `count` is the number of raw scalars in the buffer. -/
theorem C5_float_array_stride (id : String) (t : FloatDataType) (data : List AiReal) :
    declaredLogicalElements (WriteFloatArray id t data) =
      data.length / floatStrideOf t ∧
    (floatStrideOf .FloatType_Vector = 3 ∧ floatStrideOf .FloatType_TexCoord2 = 2 ∧
      floatStrideOf .FloatType_TexCoord3 = 3 ∧ floatStrideOf .FloatType_Color = 4 ∧
      floatStrideOf .FloatType_Mat4x4 = 16 ∧ floatStrideOf .FloatType_Weight = 1 ∧
      floatStrideOf .FloatType_Time = 1) ∧
    (t = .FloatType_Mat4x4 → data.length = 16 →
      declaredLogicalElements (WriteFloatArray id t data) = 1) ∧
    (t = .FloatType_Mat4x4 → data.length = 32 →
      declaredLogicalElements (WriteFloatArray id t data) = 2) := by
  have hgen : declaredLogicalElements (WriteFloatArray id t data) =
      data.length / floatStrideOf t := by
    simp [declaredLogicalElements, WriteFloatArray]
  refine ⟨hgen, ⟨rfl, rfl, rfl, rfl, rfl, rfl, rfl⟩, ?_, ?_⟩
  · intro ht hlen
    rw [hgen, ht, hlen]
    rfl
  · intro ht hlen
    rw [hgen, ht, hlen]
    rfl

theorem C5_float_array_stride_witness :
    declaredLogicalElements
      (WriteFloatArray "m" .FloatType_Mat4x4 (List.replicate 16 (0 : AiReal))) = 1 ∧
    declaredLogicalElements
      (WriteFloatArray "m" .FloatType_Mat4x4 (List.replicate 32 (0 : AiReal))) = 2 :=
  ⟨(C5_float_array_stride "m" .FloatType_Mat4x4 (List.replicate 16 (0 : AiReal))).2.2.1
      rfl (by simp),
   (C5_float_array_stride "m" .FloatType_Mat4x4 (List.replicate 32 (0 : AiReal))).2.2.2
      rfl (by simp)⟩

/-- C7: Calling `PopTag` when the writer is already at the root indentation
(empty indentation string) is a fatal, unrecoverable programming-error
fault; `PopTag` never silently succeeds from the root level, and under the
precondition that every pop is preceded by a matching unmatched push the
fault branch is unreachable. -/
theorem C7_popTag_root_fatal (ops : List TagOp)
    (hbal : tagOpsBalancedFrom 0 ops = true) :
    popTagStr "" = none ∧
    (∀ ex : ColladaExporter, ex.startstr = "" → PopTag ex = none) ∧
    (runTags "" ops).isSome := by
  refine ⟨rfl, ?_, ?_⟩
  · intro ex hs
    unfold PopTag
    rw [hs]
    rfl
  · have h0 : indentOf 0 = "" := rfl
    have := runTags_balanced ops 0 hbal
    rw [h0] at this
    exact this

theorem C7_popTag_root_fatal_witness :
    popTagStr "" = none ∧
    (∀ ex : ColladaExporter, ex.startstr = "" → PopTag ex = none) ∧
    (runTags "" [TagOp.push, TagOp.push, TagOp.pop, TagOp.pop]).isSome :=
  C7_popTag_root_fatal [TagOp.push, TagOp.push, TagOp.pop, TagOp.pop] (by decide)

/-- C9: Constructing the exporter with a null/absent source scene is a fatal
precondition violation raised at construction time, before any document text
is written (the fault is signalled with no exporter state produced, hence
nothing written); it is never silently absorbed — and a successful
construction starts with an empty output buffer and root indentation. -/
theorem C9_null_scene_fatal :
    (∀ path file : String, mkColladaExporter none path file = none) ∧
    (∀ (s : AiScene) (path file : String),
      ∃ ex0, mkColladaExporter (some s) path file = some ex0 ∧
        ex0.mOutput = [] ∧ ex0.startstr = "") :=
  ⟨fun _ _ => rfl,
   fun s path file => ⟨freshExporter s path file, rfl, rfl, rfl⟩⟩

theorem sanitizeName_length (s : String) : (sanitizeName s).length = s.length := by
  show (s.data.map _).length = s.length
  rw [List.length_map]
  rfl

theorem nodeIdCandidate_ne_boneIdCandidate (nm : String) :
    nodeIdCandidate nm ≠ boneIdCandidate nm := by
  intro h
  have hlen := congrArg String.length h
  have h1 : (nodeIdCandidate nm).length =
      (if nm = "" then ("node" : String) else nm).length := sanitizeName_length _
  have h2 : (boneIdCandidate nm).length =
      5 + (if nm = "" then ("bone" : String) else nm).length := by
    show (("bone_" : String) ++ sanitizeName (if nm = "" then "bone" else nm)).length = _
    rw [String.length_append, sanitizeName_length]
    rfl
  rw [hlen, h2] at h1
  by_cases hnm : nm = ""
  · rw [if_pos hnm, if_pos hnm] at h1
    have hn4 : ("node" : String).length = 4 := rfl
    have hb4 : ("bone" : String).length = 4 := rfl
    rw [hn4, hb4] at h1
    omega
  · rw [if_neg hnm, if_neg hnm] at h1
    omega

/-- C1: For every two distinct identities registered within one export pass
(two distinct node addresses, bone addresses, or (kind, index) pairs), the
identifier strings generated for them are pairwise distinct in the produced
document, even when the source names of the two identities are equal (the
second receives a numeric suffix; the witness run registers two nodes both
named "Root" and obtains "Root" and "Root_1"). -/
theorem C1_generated_ids_pairwise_distinct
    (s : AiScene) (path file : String) (ex0 : ColladaExporter)
    (hmk : mkColladaExporter (some s) path file = some ex0)
    (reqs : List IdRequest) (k1 k2 : IdKey) (v1 v2 : String)
    (h1 : lookupIdKey (runIdRequests ex0 reqs) k1 = some v1)
    (h2 : lookupIdKey (runIdRequests ex0 reqs) k2 = some v2)
    (hne : k1 ≠ k2) : v1 ≠ v2 :=
  (runIdRequests_inv reqs ex0 (mkColladaExporter_inv s path file hmk)).inj
    k1 k2 v1 v2 h1 h2 hne

/-- A minimal scene for the concrete witness runs. -/
def sceneW : AiScene :=
  { mRootNode := none, mTextures := [], mMeshes := [], mMaterials := [],
    mLights := [], mCameras := [], mAnimations := [] }

theorem C1_generated_ids_pairwise_distinct_witness :
    lookupIdKey (runIdRequests (freshExporter sceneW "p" "f")
        [IdRequest.node (.mk 1 "Root" false [] []),
          IdRequest.node (.mk 2 "Root" false [] [])])
      (.nodeAddr 1) = some "Root" ∧
    lookupIdKey (runIdRequests (freshExporter sceneW "p" "f")
        [IdRequest.node (.mk 1 "Root" false [] []),
          IdRequest.node (.mk 2 "Root" false [] [])])
      (.nodeAddr 2) = some "Root_1" ∧
    ("Root" : String) ≠ "Root_1" :=
  ⟨by decide, by decide,
   C1_generated_ids_pairwise_distinct sceneW "p" "f" (freshExporter sceneW "p" "f") rfl
     [IdRequest.node (.mk 1 "Root" false [] []),
       IdRequest.node (.mk 2 "Root" false [] [])]
     (.nodeAddr 1) (.nodeAddr 2) "Root" "Root_1" (by decide) (by decide) (by decide)⟩

/-- C6: Bone identifiers and node identifiers are drawn from disjoint
namespaces: for every bone and every plain node (distinct objects, hence
distinct addresses), even when both derive their candidate identifier from
identical source names, `GetBoneUniqueId` and `GetNodeUniqueId` can never
return colliding identifiers — and the bone candidate form, carrying its
bone-specific leading marker, never coincides with the node candidate form
derived from the same source name. -/
theorem C6_bone_node_namespaces_disjoint (ex : ColladaExporter)
    (hreach : ReachableExporter ex) (n : AiNode) (b : AiBone)
    (hne : n.addr ≠ b.addr) :
    (GetNodeUniqueId ex n).1 ≠ (GetBoneUniqueId (GetNodeUniqueId ex n).2 b).1 ∧
    (∀ nm : String, nodeIdCandidate nm ≠ boneIdCandidate nm) := by
  have hinv := ReachableExporter_inv hreach
  constructor
  · have hinv1 : RegInv (GetNodeUniqueId ex n).2 :=
      registerNodeKey_inv ex n.addr (nodeIdCandidate n.mName) hinv
    have hself : lookupIdKey (GetNodeUniqueId ex n).2 (.nodeAddr n.addr) =
        some (GetNodeUniqueId ex n).1 :=
      registerNodeKey_lookup_self ex n.addr (nodeIdCandidate n.mName)
    cases hb : (GetNodeUniqueId ex n).2.mNodeIdMap.lookup b.addr with
    | some id2 =>
      have hhit : GetBoneUniqueId (GetNodeUniqueId ex n).2 b =
          (id2, (GetNodeUniqueId ex n).2) :=
        registerNodeKey_hit (GetNodeUniqueId ex n).2 b.addr (boneIdCandidate b.mName) hb
      rw [hhit]
      exact hinv1.inj (.nodeAddr n.addr) (.nodeAddr b.addr)
        (GetNodeUniqueId ex n).1 id2 hself hb (by simp [hne])
    | none =>
      intro hcontra
      have hfresh : (GetBoneUniqueId (GetNodeUniqueId ex n).2 b).1 ∉
          (GetNodeUniqueId ex n).2.mUniqueIds :=
        registerNodeKey_fresh (GetNodeUniqueId ex n).2 b.addr (boneIdCandidate b.mName) hb
      have hmem : (GetNodeUniqueId ex n).1 ∈ (GetNodeUniqueId ex n).2.mUniqueIds :=
        registerNodeKey_result_mem ex n.addr (nodeIdCandidate n.mName) hinv
      exact hfresh (hcontra ▸ hmem)
  · exact nodeIdCandidate_ne_boneIdCandidate

theorem C6_bone_node_namespaces_disjoint_witness :
    (GetNodeUniqueId (freshExporter sceneW "p" "f") (.mk 1 "Arm" false [] [])).1 ≠
      (GetBoneUniqueId
        (GetNodeUniqueId (freshExporter sceneW "p" "f") (.mk 1 "Arm" false [] [])).2
        ⟨2, "Arm"⟩).1 ∧
    (∀ nm : String, nodeIdCandidate nm ≠ boneIdCandidate nm) :=
  C6_bone_node_namespaces_disjoint (freshExporter sceneW "p" "f")
    ⟨sceneW, "p", "f", freshExporter sceneW "p" "f", [], rfl, rfl⟩
    (.mk 1 "Arm" false [] []) ⟨2, "Arm"⟩ (by decide)

/-- C8: Node-tree emission leaves indentation balanced: for every node,
`WriteNode` emits the node's open markup, its instance references, one
complete child element block per child (exactly as many as the node has
children), and only then its own close markup, with the indentation string
restored; and the indentation after emitting a whole document (also for an
empty scene, which still gets its header) equals the indentation before
emission started. -/
theorem C8_node_emission_balanced :
    (∀ (ex : ColladaExporter) (pNode : AiNode),
      ∃ (ex2 : ColladaExporter) (inst : List Markup) (blocks : List (List Markup)),
        WriteNode ex pNode = some ex2 ∧
        ex2.startstr = ex.startstr ∧
        ex2.mOutput = ex.mOutput ++
          (Markup.nodeOpen (GetNodeUniqueId ex pNode).1 pNode.mName ::
            ((inst ++ blocks.flatten) ++ [Markup.nodeClose])) ∧
        blocks.length = pNode.mChildren.length ∧
        (∀ b ∈ blocks, IsNodeBlock b) ∧
        (∀ m ∈ inst, ∃ rr, m = Markup.instanceRef rr)) ∧
    (∀ ex : ColladaExporter, ∃ ex2, WriteFile ex = some ex2 ∧
      ex2.startstr = ex.startstr ∧ Markup.headerEntry ∈ ex2.mOutput) := by
  constructor
  · intro ex pNode
    obtain ⟨ex2, inst, blocks, h1, h2, h3, h4, h5, h6, _, _, _, _⟩ :=
      WriteNode_shape pNode ex
    exact ⟨ex2, inst, blocks, h1, h2, h3, h4, h5, h6⟩
  · intro ex
    obtain ⟨ex2, d, h1, h2, _, _, _, _, _, _, h9⟩ := WriteFile_full ex
    exact ⟨ex2, h1, h2, h9⟩

/-- C3: For every skinned mesh in the scene, the skeleton-root identifier
written into that mesh's controller entry equals the identifier that the
scene-graph traversal (`WriteNode`) assigns to the node recognized as the
root of the bone hierarchy: every controller entry of the produced document
references the final `mFoundSkeletonRootNodeID`, the traversal emits the
recognized root's element carrying exactly that identifier, and the registry
holds that identifier for the root's address. -/
theorem C3_controller_references_skeleton_root
    (s : AiScene) (path file : String) (ex0 : ColladaExporter)
    (hmk : mkColladaExporter (some s) path file = some ex0)
    (r : AiNode) (hroot : sceneSkeletonRoot s = some r) :
    ∃ ex2, WriteFile ex0 = some ex2 ∧
      (∀ nm ref, Markup.controllerEntry nm ref ∈ ex2.mOutput →
        ref = ex2.mFoundSkeletonRootNodeID) ∧
      Markup.nodeOpen ex2.mFoundSkeletonRootNodeID r.mName ∈ ex2.mOutput ∧
      lookupIdKey ex2 (.nodeAddr r.addr) = some ex2.mFoundSkeletonRootNodeID := by
  have hex0 : ex0 = freshExporter s path file := by
    simp only [mkColladaExporter, Option.some.injEq] at hmk
    exact hmk.symm
  subst hex0
  have hroot0 : sceneSkeletonRoot (freshExporter s path file).mScene = some r := hroot
  obtain ⟨hfld, hlook⟩ := FindSkeletonRootId_found (freshExporter s path file) r hroot0
  obtain ⟨ex2, d, hrun, hs, ho, hfld2, hl, hctrl, hanim, hemits, hheader⟩ :=
    WriteFile_full (freshExporter s path file)
  have hPout : (FindSkeletonRootId (freshExporter s path file)).mOutput = [] :=
    (FindSkeletonRootId_misc (freshExporter s path file)).2.1
  have hout : ex2.mOutput = d := by
    rw [ho, hPout]
    simp
  have hfldfin : ex2.mFoundSkeletonRootNodeID =
      (GetNodeUniqueId (freshExporter s path file) r).1 := hfld2.trans hfld
  refine ⟨ex2, hrun, ?_, ?_, ?_⟩
  · intro nm ref hm
    rw [hout] at hm
    rw [hfld2]
    exact hctrl nm ref hm
  · obtain ⟨root0, hsr, hfsr⟩ : ∃ root0, s.mRootNode = some root0 ∧
        findSkeletonRoot root0 = some r := by
      cases hsr : s.mRootNode with
      | none =>
        rw [show sceneSkeletonRoot s = s.mRootNode.bind findSkeletonRoot from rfl,
          hsr] at hroot
        exact Option.noConfusion hroot
      | some root0 =>
        refine ⟨root0, rfl, ?_⟩
        rw [show sceneSkeletonRoot s = s.mRootNode.bind findSkeletonRoot from rfl,
          hsr] at hroot
        simpa using hroot
    have hmem := hemits r root0 (GetNodeUniqueId (freshExporter s path file) r).1
      hsr (findSkeletonRoot_mem root0 r hfsr) hlook
    rw [hfldfin]
    exact hmem
  · have := hl (.nodeAddr r.addr) (GetNodeUniqueId (freshExporter s path file) r).1 hlook
    rw [hfldfin]
    exact this

def sceneC3 : AiScene :=
  { mRootNode := some (.mk 1 "Scene" false [] [.mk 2 "Hip" true [] []]),
    mTextures := [], mMeshes := [AiMesh.mk "skin" [⟨7, "Hip"⟩]], mMaterials := [],
    mLights := [], mCameras := [], mAnimations := [] }

theorem C3_controller_references_skeleton_root_witness :
    ∃ ex2, WriteFile (freshExporter sceneC3 "p" "f") = some ex2 ∧
      (∀ nm ref, Markup.controllerEntry nm ref ∈ ex2.mOutput →
        ref = ex2.mFoundSkeletonRootNodeID) ∧
      Markup.nodeOpen ex2.mFoundSkeletonRootNodeID
        (AiNode.mk 2 "Hip" true [] []).mName ∈ ex2.mOutput ∧
      lookupIdKey ex2 (.nodeAddr (AiNode.mk 2 "Hip" true [] []).addr) =
        some ex2.mFoundSkeletonRootNodeID :=
  C3_controller_references_skeleton_root sceneC3 "p" "f"
    (freshExporter sceneC3 "p" "f") rfl (.mk 2 "Hip" true [] [])
    (by simp [sceneSkeletonRoot, sceneC3, findSkeletonRoot, findSkeletonRootList])

/-- C10: If the scene-graph traversal never recognizes any node as the root
of a bone hierarchy, the skeleton-root identifier keeps its initial default
value, the literal string "skeleton_root", and the controller/animation
entries of the produced document reference that literal. -/
theorem C10_default_skeleton_root
    (s : AiScene) (path file : String) (ex0 : ColladaExporter)
    (hmk : mkColladaExporter (some s) path file = some ex0)
    (hnone : sceneSkeletonRoot s = none) :
    ∃ ex2, WriteFile ex0 = some ex2 ∧
      ex2.mFoundSkeletonRootNodeID = "skeleton_root" ∧
      (∀ nm ref, Markup.controllerEntry nm ref ∈ ex2.mOutput →
        ref = "skeleton_root") ∧
      (∀ nm ref, Markup.animationEntry nm ref ∈ ex2.mOutput →
        ref = "skeleton_root") := by
  have hex0 : ex0 = freshExporter s path file := by
    simp only [mkColladaExporter, Option.some.injEq] at hmk
    exact hmk.symm
  subst hex0
  have hP : FindSkeletonRootId (freshExporter s path file) =
      freshExporter s path file :=
    FindSkeletonRootId_none (freshExporter s path file) hnone
  obtain ⟨ex2, d, hrun, hs, ho, hfld2, hl, hctrl, hanim, hemits, hheader⟩ :=
    WriteFile_full (freshExporter s path file)
  rw [hP] at ho hfld2 hctrl hanim
  have hfld : ex2.mFoundSkeletonRootNodeID = "skeleton_root" := hfld2
  have hout : ex2.mOutput = d := by
    rw [ho]
    show ([] : List Markup) ++ d = d
    simp
  refine ⟨ex2, hrun, hfld, ?_, ?_⟩
  · intro nm ref hm
    rw [hout] at hm
    exact hctrl nm ref hm
  · intro nm ref hm
    rw [hout] at hm
    exact hanim nm ref hm

def sceneC10 : AiScene :=
  { mRootNode := some (.mk 1 "A" false [] []), mTextures := [],
    mMeshes := [AiMesh.mk "skin" [⟨7, "b"⟩]], mMaterials := [],
    mLights := [], mCameras := [], mAnimations := ["anim0"] }

theorem C10_default_skeleton_root_witness :
    ∃ ex2, WriteFile (freshExporter sceneC10 "p" "f") = some ex2 ∧
      ex2.mFoundSkeletonRootNodeID = "skeleton_root" ∧
      (∀ nm ref, Markup.controllerEntry nm ref ∈ ex2.mOutput →
        ref = "skeleton_root") ∧
      (∀ nm ref, Markup.animationEntry nm ref ∈ ex2.mOutput →
        ref = "skeleton_root") :=
  C10_default_skeleton_root sceneC10 "p" "f" (freshExporter sceneC10 "p" "f") rfl
    (by simp [sceneSkeletonRoot, sceneC10, findSkeletonRoot, findSkeletonRootList])

end ColladaExport
